import Mathlib

/-!
# EDRH claim protocol: ClaimManager and the claim requests of SupabaseClient

A shallow embedding of `claimmanager.cpp` / `claimmanager.h`, of the claim
related request builders and reply handlers of `supabaseclient.cpp`, and of the
refresh debounce and the unclaimed-systems cursor of `edrhcontroller.cpp`.

Modelling conventions
* `QString` is `String`; `QString::isEmpty()` is equality with `""`.
* A row of the `taken` table (a `QJsonObject` inside a `QJsonArray`) is a
  `TakenRow`; every field holds what the code reads through
  `row["system"].toString()`, `row["by_cmdr"].toString()`, `row["done"].toBool()`
  (an absent key reads as `""` / `false`).
* `m_takenSystemsData` (the Registry) is the list of rows, in array order.
* `m_pendingOverrides` (a `QHash<QString, PendingOverride>`) is a finite map,
  modelled as a function `String → Option PendingOverride`.
* `QDateTime::currentMSecsSinceEpoch()` is a parameter `now : Int`, one per read
  of the clock; `now + 2000` is exact, milliseconds since the epoch being far
  from the bounds of `qint64`.
* Qt signals and calls into the store adapter are collected, in program order,
  in a list of `Effect`s.
* A finite `double` is a rational number (`ℚ`); every finite double is one, and
  the sign of a zero is not kept. `QString::arg(double)` is `formatDouble`.
-/

namespace EDRH

/-! ## Data model -/

/-- One row of the `taken` table as the code reads it. -/
structure TakenRow where
  system : String
  by_cmdr : String
  done : Bool
  visited : Bool
  edited : Bool
deriving DecidableEq

/-- The struct `ClaimManager::PendingOverride` of `claimmanager.h`. -/
structure PendingOverride where
  claimed : Bool
  expireAtMs : Int
deriving DecidableEq

/-- Signals emitted by `ClaimManager` and calls it makes on `m_supabaseClient`. -/
inductive Effect where
  | claimError (message : String)
  | currentClaimChanged (systemName : String)
  | claimStatusChanged (systemName : String) (isClaimed : Bool) (claimedBy : String)
  | clientClaimSystem (systemName : String) (commander : String)
  | clientUnclaimSystem (systemName : String)
  | clientGetTakenSystems
deriving DecidableEq

/-- The private members of `ClaimManager`. `m_supabaseClient` is `true` exactly
when the pointer is not null. -/
structure ClaimManager where
  m_supabaseClient : Bool
  m_commanderName : String
  m_currentClaim : String
  m_takenSystemsData : List TakenRow
  m_pendingOverrides : String → Option PendingOverride

/-- The value returned by a member function together with the object afterwards
and the signals / adapter calls made on the way. -/
structure Outcome (α : Type) where
  result : α
  state : ClaimManager
  effects : List Effect

/-- The out-parameters and return value of `ClaimManager::querySystemStatus`. -/
structure SystemStatus where
  ok : Bool
  claimedBy : String
  isDone : Bool
deriving DecidableEq

/-! ## ClaimManager -/

/-- The test `claimedBy.compare("empty", Qt::CaseInsensitive) == 0`. No character
outside ASCII case-folds to one of the letters of `empty`, so folding the ASCII
letters is the whole comparison. -/
def isEmptyPlaceholder (claimedBy : String) : Bool :=
  claimedBy.data.map Char.toLower == "empty".data

/-- Member function `ClaimManager::hasActiveClaim`. -/
def hasActiveClaim (s : ClaimManager) : Bool :=
  s.m_currentClaim != ""

/-- Member function `ClaimManager::querySystemStatus`: the first row whose
`system` is `systemName` decides; the placeholder owner is cleared. -/
def querySystemStatus (s : ClaimManager) (systemName : String) : SystemStatus :=
  match s.m_takenSystemsData.find? (fun system => system.system == systemName) with
  | some system =>
      { ok := true
        claimedBy := if isEmptyPlaceholder system.by_cmdr then "" else system.by_cmdr
        isDone := system.done }
  | none => { ok := true, claimedBy := "", isDone := false }

/-- Member function `ClaimManager::canClaimSystem`. -/
def canClaimSystem (s : ClaimManager) (systemName : String) : Bool :=
  if hasActiveClaim s then false
  else
    let st := querySystemStatus s systemName
    if st.ok && (st.claimedBy != "" && st.claimedBy != s.m_commanderName) then false
    else if st.claimedBy == "" then true
    else if st.claimedBy == s.m_commanderName && st.isDone then true
    else false

/-- Member function `ClaimManager::claimSystem`. The local `data` object built by
the code is never used and is left out. -/
def claimSystem (s : ClaimManager) (systemName : String) : Outcome Bool :=
  if !s.m_supabaseClient then
    { result := false, state := s
      effects := [Effect.claimError "Database client not initialized"] }
  else
    { result := true
      state := { s with m_currentClaim := systemName }
      effects := [Effect.clientClaimSystem systemName s.m_commanderName,
                  Effect.currentClaimChanged systemName,
                  Effect.claimStatusChanged systemName true s.m_commanderName] }

/-- Member function `ClaimManager::unclaimSystem`. -/
def unclaimSystem (s : ClaimManager) (systemName : String) : Outcome Bool :=
  let st := querySystemStatus s systemName
  if st.claimedBy != "" && st.claimedBy != s.m_commanderName then
    { result := false, state := s
      effects := [Effect.claimError "Cannot unclaim: System is not claimed by you"] }
  else if !s.m_supabaseClient then
    { result := false, state := s
      effects := [Effect.claimError "Database client not initialized"] }
  else if s.m_currentClaim == systemName then
    { result := true
      state := { s with m_currentClaim := "" }
      effects := [Effect.clientUnclaimSystem systemName,
                  Effect.currentClaimChanged "",
                  Effect.claimStatusChanged systemName false ""] }
  else
    { result := true, state := s
      effects := [Effect.clientUnclaimSystem systemName,
                  Effect.claimStatusChanged systemName false ""] }

/-- The search loop of `ClaimManager::queryCurrentClaim`: the system of the first
row of the caller that is not done, or the empty string. -/
def findActiveClaim (commanderName : String) (taken : List TakenRow) : String :=
  match taken.find? (fun system => system.by_cmdr == commanderName && !system.done) with
  | some system => system.system
  | none => ""

/-- Member function `ClaimManager::queryCurrentClaim`. -/
def queryCurrentClaim (s : ClaimManager) : Outcome Bool :=
  let foundClaim := findActiveClaim s.m_commanderName s.m_takenSystemsData
  if s.m_currentClaim != foundClaim then
    { result := true
      state := { s with m_currentClaim := foundClaim }
      effects := [Effect.currentClaimChanged foundClaim] }
  else
    { result := true, state := s, effects := [] }

/-- Slot `ClaimManager::onTakenSystemsReceived`. -/
def onTakenSystemsReceived (s : ClaimManager) (taken : List TakenRow) : Outcome Unit :=
  if taken.length > 10 then
    let r := queryCurrentClaim { s with m_takenSystemsData := taken }
    { result := (), state := r.state, effects := r.effects }
  else
    { result := (), state := s, effects := [] }

/-- Member function `ClaimManager::pruneExpiredOverrides`, the clock reading `now`. -/
def pruneExpiredOverrides (s : ClaimManager) (now : Int) : ClaimManager :=
  { s with
    m_pendingOverrides := fun k =>
      match s.m_pendingOverrides k with
      | some o => if o.expireAtMs ≤ now then none else some o
      | none => none }

/-- Member function `ClaimManager::applyLocalClaim`, the clock reading `now`. -/
def applyLocalClaim (s : ClaimManager) (systemName : String) (now : Int) : Outcome Unit :=
  if systemName == "" then { result := (), state := s, effects := [] }
  else
    { result := ()
      state :=
        { s with
          m_currentClaim := systemName
          m_pendingOverrides := fun k =>
            if k = systemName then some { claimed := true, expireAtMs := now + 2000 }
            else s.m_pendingOverrides k }
      effects := [Effect.currentClaimChanged systemName,
                  Effect.claimStatusChanged systemName true s.m_commanderName] }

/-- Member function `ClaimManager::applyLocalUnclaim`, the clock reading `now`. -/
def applyLocalUnclaim (s : ClaimManager) (systemName : String) (now : Int) : Outcome Unit :=
  if systemName == "" then { result := (), state := s, effects := [] }
  else
    let overrides : String → Option PendingOverride := fun k =>
      if k = systemName then some { claimed := false, expireAtMs := now + 2000 }
      else s.m_pendingOverrides k
    if s.m_currentClaim == systemName then
      { result := ()
        state := { s with m_currentClaim := "", m_pendingOverrides := overrides }
        effects := [Effect.currentClaimChanged "",
                    Effect.claimStatusChanged systemName false ""] }
    else
      { result := ()
        state := { s with m_pendingOverrides := overrides }
        effects := [Effect.claimStatusChanged systemName false ""] }

/-- Member function `ClaimManager::getSystemClaimedBy`, the clock reading `now`. -/
def getSystemClaimedBy (s : ClaimManager) (systemName : String) (now : Int) :
    Outcome String :=
  let s1 := pruneExpiredOverrides s now
  match s1.m_pendingOverrides systemName with
  | some o =>
      { result := if o.claimed then s1.m_commanderName else "", state := s1, effects := [] }
  | none =>
      if s1.m_currentClaim != "" && systemName == s1.m_currentClaim then
        { result := s1.m_commanderName, state := s1, effects := [] }
      else
        { result := (querySystemStatus s1 systemName).claimedBy, state := s1, effects := [] }

/-- Member function `ClaimManager::isSystemClaimedByUser`. It reads the clock
twice: `now` in its own prune and `now2` in the prune of the nested
`getSystemClaimedBy`. -/
def isSystemClaimedByUser (s : ClaimManager) (systemName : String) (now now2 : Int) :
    Outcome Bool :=
  let s1 := pruneExpiredOverrides s now
  match s1.m_pendingOverrides systemName with
  | some o => { result := o.claimed, state := s1, effects := [] }
  | none =>
      if s1.m_currentClaim != "" && systemName == s1.m_currentClaim then
        { result := true, state := s1, effects := [] }
      else
        let r := getSystemClaimedBy s1 systemName now2
        { result := r.result == s1.m_commanderName, state := r.state, effects := r.effects }

/-- Member function `ClaimManager::isSystemCompleted`. -/
def isSystemCompleted (s : ClaimManager) (systemName : String) : Bool :=
  let st := querySystemStatus s systemName
  if st.ok then st.isDone && st.claimedBy == s.m_commanderName else false

/-- Member function `ClaimManager::getClaimCount`. -/
def getClaimCount (s : ClaimManager) : Nat :=
  (s.m_takenSystemsData.filter (fun system => system.by_cmdr == s.m_commanderName)).length

/-- Member function `ClaimManager::refreshClaimData`. -/
def refreshClaimData (s : ClaimManager) : Outcome Unit :=
  if !s.m_supabaseClient then { result := (), state := s, effects := [] }
  else { result := (), state := s, effects := [Effect.clientGetTakenSystems] }

/-! ## Sequences of claim / unclaim calls -/

/-- One call of the claim protocol by the caller. -/
inductive ClaimOp where
  | claim (systemName : String)
  | unclaim (systemName : String)
deriving DecidableEq

/-- The object after one call. -/
def runOp (s : ClaimManager) : ClaimOp → ClaimManager
  | ClaimOp.claim systemName => (claimSystem s systemName).state
  | ClaimOp.unclaim systemName => (unclaimSystem s systemName).state

/-- The object after a sequence of calls, first call first. -/
def runOps (s : ClaimManager) (ops : List ClaimOp) : ClaimManager :=
  ops.foldl runOp s

/-- The Registry record of `r` shows a different owner with `done == false`
(the placeholder owner counts as no owner). -/
def heldByOther (s : ClaimManager) (r : String) : Bool :=
  let st := querySystemStatus s r
  st.claimedBy != "" && st.claimedBy != s.m_commanderName && !st.isDone

/-- The single-active-claim property of a state: `m_currentClaim` is empty, or
it is a resource that the Registry does not show as actively held by another
owner. -/
def singleActiveClaim (s : ClaimManager) : Bool :=
  s.m_currentClaim == "" || !heldByOther s s.m_currentClaim

/-- Every resource claimed in `ops` is one the Registry of `s` does not show as
actively held by another owner. -/
def claimsAllowed (s : ClaimManager) (ops : List ClaimOp) : Bool :=
  ops.all fun op =>
    match op with
    | ClaimOp.claim r => !heldByOther s r
    | ClaimOp.unclaim _ => true

/-! ## Example rows and states -/

/-- A row with the given key, owner and done flag. -/
def mkRow (system by_cmdr : String) (done : Bool) : TakenRow :=
  { system := system, by_cmdr := by_cmdr, done := done, visited := false, edited := false }

/-- The empty Override Table. -/
def noOverrides : String → Option PendingOverride := fun _ => none

/-- The Override Table holding one entry. -/
def oneOverride (systemName : String) (o : PendingOverride) :
    String → Option PendingOverride :=
  fun k => if k = systemName then some o else none

/-- A manager for `commander` with a store adapter, no claim, no overrides. -/
def mkManager (commander : String) (taken : List TakenRow) : ClaimManager :=
  { m_supabaseClient := true, m_commanderName := commander, m_currentClaim := ""
    m_takenSystemsData := taken, m_pendingOverrides := noOverrides }

/-! ## SupabaseClient: the unclaim request and the claim confirmation -/

/-- The members of `SupabaseClient` read by the claim requests. -/
structure SupabaseClient where
  m_supabaseUrl : String
  m_supabaseKey : String
  m_currentCommander : String
deriving DecidableEq

/-- Signals emitted by `SupabaseClient` and requests it sends to the store.
`patchTaken systemEq by_cmdr` is the request
`PATCH taken?system=eq.<systemEq>` with body `{"by_cmdr": <by_cmdr>}`
(operation tag `UNCLAIM:mark_empty`); `getTaken` is
`GET taken?select=*&order=id.desc` (operation tag `GET:taken`);
`checkExistingClaim systemEq` is `GET taken?system=eq.<systemEq>` (operation tag
`CHECK:existing_claim`); `upsertTaken system by_cmdr visited done` is
`POST taken?on_conflict=system` with `Prefer: resolution=merge-duplicates` and the
four fields as body (operation tag `POST:taken`). -/
inductive ClientEffect where
  | networkError (message : String)
  | systemClaimed (systemName : String) (success : Bool)
  | systemUnclaimed (systemName : String) (success : Bool)
  | patchTaken (systemEq : String) (by_cmdr : String)
  | getTaken
  | checkExistingClaim (systemEq : String)
  | upsertTaken (system : String) (by_cmdr : String) (visited : Bool) (done : Bool)
deriving DecidableEq

namespace SupabaseClient

/-- Member function `SupabaseClient::unclaimSystem`. `patchReply` tells whether
`sendCustomRequest` returned a reply object. The commander headers of the
request are not part of the model. -/
def unclaimSystem (c : SupabaseClient) (systemName : String) (patchReply : Bool) :
    List ClientEffect :=
  if c.m_supabaseUrl == "" || c.m_supabaseKey == "" then
    [ClientEffect.networkError "Supabase not configured"]
  else if c.m_currentCommander == "" || c.m_currentCommander == "Unknown" then
    [ClientEffect.systemUnclaimed systemName false]
  else if patchReply then
    [ClientEffect.patchTaken systemName "empty"]
  else
    [ClientEffect.patchTaken systemName "empty", ClientEffect.systemUnclaimed systemName false]

/-- The branch `POST:taken` of `SupabaseClient::handleNetworkReply`: the store
confirmed the claim write for `systemName`. The signal is emitted at once; the
refresh request `getTakenSystems()` is queued with a zero timer. -/
def handleNetworkReply_POST_taken (systemName : String) : List ClientEffect :=
  [ClientEffect.systemClaimed systemName true, ClientEffect.getTaken]

/-- Member function `SupabaseClient::setCommanderContext`. -/
def setCommanderContext (c : SupabaseClient) (commanderName : String) : SupabaseClient :=
  if c.m_supabaseUrl == "" || c.m_supabaseKey == "" then c
  else if commanderName == "" || commanderName == "Unknown" then c
  else { c with m_currentCommander := commanderName }

/-- Member function `SupabaseClient::claimSystem`: it only sends the check read;
the write follows in the reply handler. The result of
`checkSystemVisitedInJournal` travels with the reply and is a parameter of the
handler below. -/
def claimSystem (c : SupabaseClient) (systemName commander : String) :
    SupabaseClient × List ClientEffect :=
  if c.m_supabaseUrl == "" || c.m_supabaseKey == "" then
    (c, [ClientEffect.networkError "Supabase not configured"])
  else if systemName == "" || commander == "" then
    (c, [ClientEffect.systemClaimed systemName false])
  else
    (if c.m_currentCommander != commander then setCommanderContext c commander else c,
      [ClientEffect.checkExistingClaim systemName])

/-- The text of the conflict error of the `CHECK:existing_claim` branch. -/
def conflictMessage (systemName claimedBy : String) : String :=
  "System '" ++ systemName ++ "' is already claimed by " ++ claimedBy ++
    ". You cannot claim systems that belong to other commanders unless they are marked as 'Done'."

/-- The branch `CHECK:existing_claim` of `SupabaseClient::handleNetworkReply`.
`systemName`, `commander` and `hasVisited` are the properties stored on the
reply, `existingData` is the array of rows the check read returned. -/
def handleNetworkReply_CHECK_existing_claim (systemName commander : String)
    (hasVisited : Bool) (existingData : List TakenRow) : List ClientEffect :=
  match existingData with
  | existingClaim :: _ =>
      if existingClaim.by_cmdr == "" || isEmptyPlaceholder existingClaim.by_cmdr then
        [ClientEffect.upsertTaken systemName commander hasVisited false]
      else if existingClaim.by_cmdr == commander then
        [ClientEffect.systemClaimed systemName true]
      else if existingClaim.done then
        [ClientEffect.upsertTaken systemName commander hasVisited false]
      else
        [ClientEffect.systemClaimed systemName false,
         ClientEffect.networkError (conflictMessage systemName existingClaim.by_cmdr)]
  | [] => [ClientEffect.upsertTaken systemName commander hasVisited false]

end SupabaseClient

/-- The lambda that `EDRHController::setSupabaseClient` connects to
`SupabaseClient::systemClaimed`, as far as it acts on the ClaimManager: on success
it invokes `applyLocalClaim`. -/
def onSystemClaimed (s : ClaimManager) (systemName : String) (success : Bool) (now : Int) :
    ClaimManager :=
  if success then (applyLocalClaim s systemName now).state else s

/-- Modelled from the spec: the Remote Claim Store is an external service and not
part of the repository. It is a row-per-resource table keyed by resource name
(I1), here a map from resource to record. -/
abbrev RemoteTable := String → Option TakenRow

/-- Modelled from the spec: the partial-field patch of the Remote Claim Store.
It overwrites the owner field of the row whose key is `systemEq` and touches
nothing else; it never creates and never deletes a row (I3). -/
def RemoteTable.patchOwner (t : RemoteTable) (systemEq by_cmdr : String) : RemoteTable :=
  fun k => if k = systemEq then (t k).map (fun row => { row with by_cmdr := by_cmdr }) else t k

/-- Modelled from the spec: the insert-or-merge on conflict of the Remote Claim
Store, keyed on the resource. An existing row for `system` gets the three written
fields and keeps the rest; a missing row is created. The write is always
accepted (the store exposes no compare-and-swap). -/
def RemoteTable.upsert (t : RemoteTable) (system by_cmdr : String) (visited done : Bool) :
    RemoteTable :=
  fun k =>
    if k = system then
      match t k with
      | some row => some { row with by_cmdr := by_cmdr, visited := visited, done := done }
      | none =>
          some { system := system, by_cmdr := by_cmdr, done := done, visited := visited,
                 edited := false }
    else t k

/-- The remote table after the store has served one effect of the client; only
requests change it. -/
def RemoteTable.serve (t : RemoteTable) : ClientEffect → RemoteTable
  | ClientEffect.patchTaken systemEq by_cmdr => t.patchOwner systemEq by_cmdr
  | ClientEffect.upsertTaken system by_cmdr visited done => t.upsert system by_cmdr visited done
  | _ => t

/-- The remote table after the store has served the requests among `effects`. -/
def RemoteTable.serveAll (t : RemoteTable) (effects : List ClientEffect) : RemoteTable :=
  effects.foldl RemoteTable.serve t

/-- Delivery of one effect of the client to the ClaimManager side: the signal
`systemClaimed` runs `onSystemClaimed`; requests to the store change nothing
locally. -/
def deliver (now : Int) (s : ClaimManager) : ClientEffect → ClaimManager
  | ClientEffect.systemClaimed systemName success => onSystemClaimed s systemName success now
  | _ => s

/-- The local state of the claim scenario just before the refresh response is
delivered: `claimSystem(r)`, then the store's confirmation of the write handled
by the `POST:taken` branch at time `now`. -/
def afterConfirmedClaim (s : ClaimManager) (r : String) (now : Int) : ClaimManager :=
  (SupabaseClient.handleNetworkReply_POST_taken r).foldl (deliver now) (claimSystem s r).state

/-- A client with a configured store and a commander context. -/
def mkClient (commander : String) : SupabaseClient :=
  { m_supabaseUrl := "https://store.example", m_supabaseKey := "key"
    m_currentCommander := commander }

/-- A remote table holding one row. -/
def oneRowTable (row : TakenRow) : RemoteTable :=
  fun k => if k = row.system then some row else none

/-- A full-table response of eleven rows in which the row of `Sol` is Alice's
only active row. -/
def fullTable : List TakenRow :=
  [mkRow "Achenar" "Bob" false, mkRow "Sol" "Alice" false, mkRow "Vega" "empty" false,
   mkRow "Alioth" "Carol" true, mkRow "Deneb" "Alice" true, mkRow "Altair" "Bob" true,
   mkRow "Rigel" "Dave" false, mkRow "Mizar" "empty" true, mkRow "Spica" "Carol" false,
   mkRow "Castor" "Erin" false, mkRow "Pollux" "Erin" true]

/-- A full-table response of eleven rows in which Alice has an active row for
`Vega` ahead of her row for `Sol`. -/
def twoActiveTable : List TakenRow :=
  [mkRow "Achenar" "Bob" false, mkRow "Vega" "Alice" false, mkRow "Sol" "Alice" false,
   mkRow "Alioth" "Carol" true, mkRow "Deneb" "Alice" true, mkRow "Altair" "Bob" true,
   mkRow "Rigel" "Dave" false, mkRow "Mizar" "empty" true, mkRow "Spica" "Carol" false,
   mkRow "Castor" "Erin" false, mkRow "Pollux" "Erin" true]

/-! ## ClaimManager: construction, debug status, traces of operations -/

/-- The object built by the constructor `ClaimManager::ClaimManager`: no store
adapter, empty strings, empty Registry, empty Override Table. -/
def ClaimManager.ctor : ClaimManager :=
  { m_supabaseClient := false, m_commanderName := "", m_currentClaim := ""
    m_takenSystemsData := [], m_pendingOverrides := fun _ => none }

/-- Member function `ClaimManager::initialize`. `supabaseClient` tells whether the
pointer passed in is non-null. (The name is a reserved word here, hence the
suffix.) -/
def initializeManager (s : ClaimManager) (supabaseClient : Bool) (commanderName : String) :
    Outcome Unit :=
  let r := queryCurrentClaim
    { s with m_supabaseClient := supabaseClient, m_commanderName := commanderName }
  { result := (), state := r.state, effects := r.effects }

/-- Member function `ClaimManager::getClaimStatusDebug`. The `QString::arg`
substitutions are written as concatenations, which is what they produce for
names that hold no `%1`-style place marker. -/
def getClaimStatusDebug (s : ClaimManager) (systemName : String) : String :=
  let st := querySystemStatus s systemName
  let status :=
    if st.ok then
      if st.claimedBy == "" then "UNCLAIMED"
      else if st.claimedBy == s.m_commanderName then
        if st.isDone then "YOURS_DONE"
        else if systemName == s.m_currentClaim then "YOURS_ACTIVE"
        else "YOURS_ORPHANED"
      else "CLAIMED_BY_" ++ st.claimedBy
    else "UNKNOWN"
  status ++ " [Current: " ++ s.m_currentClaim ++ "]"

/-- One call on the ClaimManager, with its arguments and clock readings. -/
inductive ManagerOp where
  | initializeManager (supabaseClient : Bool) (commanderName : String)
  | canClaimSystem (systemName : String)
  | claimSystem (systemName : String)
  | unclaimSystem (systemName : String)
  | applyLocalClaim (systemName : String) (now : Int)
  | applyLocalUnclaim (systemName : String) (now : Int)
  | getSystemClaimedBy (systemName : String) (now : Int)
  | isSystemClaimedByUser (systemName : String) (now now2 : Int)
  | isSystemCompleted (systemName : String)
  | getClaimCount
  | getClaimStatusDebug (systemName : String)
  | refreshClaimData
  | onTakenSystemsReceived (taken : List TakenRow)

/-- The object after one call. The queries `canClaimSystem`, `isSystemCompleted`,
`getClaimCount` and `getClaimStatusDebug` assign to no member. -/
def ManagerOp.step (s : ClaimManager) : ManagerOp → ClaimManager
  | ManagerOp.initializeManager supabaseClient commanderName =>
      (EDRH.initializeManager s supabaseClient commanderName).state
  | ManagerOp.canClaimSystem _ => s
  | ManagerOp.claimSystem systemName => (EDRH.claimSystem s systemName).state
  | ManagerOp.unclaimSystem systemName => (EDRH.unclaimSystem s systemName).state
  | ManagerOp.applyLocalClaim systemName now => (EDRH.applyLocalClaim s systemName now).state
  | ManagerOp.applyLocalUnclaim systemName now =>
      (EDRH.applyLocalUnclaim s systemName now).state
  | ManagerOp.getSystemClaimedBy systemName now =>
      (EDRH.getSystemClaimedBy s systemName now).state
  | ManagerOp.isSystemClaimedByUser systemName now now2 =>
      (EDRH.isSystemClaimedByUser s systemName now now2).state
  | ManagerOp.isSystemCompleted _ => s
  | ManagerOp.getClaimCount => s
  | ManagerOp.getClaimStatusDebug _ => s
  | ManagerOp.refreshClaimData => (EDRH.refreshClaimData s).state
  | ManagerOp.onTakenSystemsReceived taken => (EDRH.onTakenSystemsReceived s taken).state

/-- The object after a sequence of calls, first call first. -/
def ManagerOp.run (s : ClaimManager) (ops : List ManagerOp) : ClaimManager :=
  ops.foldl ManagerOp.step s

/-- The call is a refresh response that the slot accepts (more than 10 rows). -/
def ManagerOp.isAcceptedRefresh : ManagerOp → Bool
  | ManagerOp.onTakenSystemsReceived taken => decide (taken.length > 10)
  | _ => false

/-- One local override action on a fixed resource: `true` is `applyLocalClaim`,
`false` is `applyLocalUnclaim`, with the clock reading of the call. -/
structure LocalAction where
  claimed : Bool
  now : Int
deriving DecidableEq

/-- The object after one local override action on `r`. -/
def applyLocal (r : String) (s : ClaimManager) (a : LocalAction) : ClaimManager :=
  if a.claimed then (applyLocalClaim s r a.now).state else (applyLocalUnclaim s r a.now).state

/-- The object after a sequence of local override actions on `r`. -/
def applyLocals (r : String) (s : ClaimManager) (actions : List LocalAction) : ClaimManager :=
  actions.foldl (applyLocal r) s

/-! ## EDRHController: refresh debounce and the unclaimed-systems cursor -/

/-- The two function-local statics of `EDRHController::updateNearestSystems`.
`lastRequestTime` is `none` while the `QDateTime` is still null, else the time in
milliseconds; `lastRequestPosition` starts empty. -/
structure NearestThrottle where
  lastRequestTime : Option Int
  lastRequestPosition : String
deriving DecidableEq

/-- The request sent by `EDRHController::updateNearestSystems`. -/
inductive NearestRequest where
  | getSystemsNear
  | getSystems
deriving DecidableEq

/-- The test `lastRequestTime.addSecs(2) > now`; a null `QDateTime` is not later
than any time. -/
def withinTwoSeconds (lastRequestTime : Option Int) (now : Int) : Bool :=
  match lastRequestTime with
  | some last => decide (last + 2000 > now)
  | none => false

/-- Division of `p` by `q` rounded to the nearest integer, a half rounded up. -/
def roundHalfUp (p q : Nat) : Nat :=
  (2 * p + q) / (2 * q)

/-- The number of decimal digits of `m`. -/
def numDigits (m : Nat) : Nat :=
  (Nat.toDigits 10 m).length

/-- The decimal exponent of the positive fraction `n / d`: the `X` with
`10 ^ X <= n / d < 10 ^ (X + 1)`. -/
def decimalExponent (n d : Nat) : Int :=
  if d ≤ n then (numDigits (n / d) : Int) - 1 else -(numDigits ((d - 1) / n) : Int)

/-- The fraction `n / d` scaled to six significant digits for the decimal
exponent `e`, that is `n / d * 10 ^ (5 - e)`, rounded to an integer. -/
def scaleRound (n d : Nat) (e : Int) : Nat :=
  if e ≤ 5 then roundHalfUp (n * 10 ^ (5 - e).toNat) d
  else roundHalfUp n (d * 10 ^ (e - 5).toNat)

/-- The digits without their trailing zeros. -/
def chopZeros (digits : List Char) : List Char :=
  (digits.reverse.dropWhile (fun c => c == '0')).reverse

/-- The plain form of a number with the given significant digits and `decpt`
digits before the decimal point. -/
def decimalForm (digits : List Char) (decpt : Int) : List Char :=
  if decpt ≤ 0 then '0' :: '.' :: (List.replicate (-decpt).toNat '0' ++ digits)
  else if (digits.length : Int) ≤ decpt then
    digits ++ List.replicate (decpt.toNat - digits.length) '0'
  else digits.take decpt.toNat ++ '.' :: digits.drop decpt.toNat

/-- The digits of an exponent, at least two of them. -/
def exponentDigits (e : Nat) : List Char :=
  if e < 10 then '0' :: Nat.toDigits 10 e else Nat.toDigits 10 e

/-- The exponent form `d.ddddde+XX` of a number with the given significant digits
and `decpt` digits before the decimal point. -/
def exponentForm (digits : List Char) (decpt : Int) : List Char :=
  (match digits with
    | [] => []
    | [c] => [c]
    | c :: rest => c :: '.' :: rest) ++
  'e' :: (if decpt - 1 < 0 then '-' else '+') :: exponentDigits (decpt - 1).natAbs

/-- The text Qt's `QString::arg(double)` substitutes for a finite value with its
default arguments (format `'g'`, precision `-1`, C locale): six significant
digits, trailing zeros chopped, exponent form when the decimal exponent is
below `-4` or at least `6`. A value exactly half-way between two six-digit
numbers is rounded up in magnitude. -/
def formatDouble (x : ℚ) : String :=
  if x.num = 0 then "0"
  else
    let n := x.num.natAbs
    let d := x.den
    let e0 := decimalExponent n d
    let m0 := scaleRound n d e0
    let e := if m0 = 1000000 then e0 + 1 else e0
    let m := if m0 = 1000000 then 100000 else m0
    let digits := chopZeros (Nat.toDigits 10 m)
    let decpt := e + 1
    let body :=
      if decpt ≠ (digits.length : Int) ∧ (decpt ≤ -4 ∨ decpt > 6) then exponentForm digits decpt
      else decimalForm digits decpt
    String.mk (if x.num < 0 then '-' :: body else body)

/-- The expression
`QString("%1,%2,%3").arg(m_commanderX).arg(m_commanderY).arg(m_commanderZ)` of
`EDRHController::updateNearestSystems`: the three coordinates, each as printed
by `QString::arg(double)`, separated by commas. -/
def positionText (m_commanderX m_commanderY m_commanderZ : ℚ) : String :=
  formatDouble m_commanderX ++ "," ++ formatDouble m_commanderY ++ "," ++
    formatDouble m_commanderZ

/-- Member function `EDRHController::updateNearestSystems`. `hasClient`,
`configured` and `inCooldown` are the three adapter tests at its head;
`m_commanderX`, `m_commanderY`, `m_commanderZ` are the commander coordinates;
`now` is the clock reading in milliseconds. Returns the statics afterwards and
the request sent, if any. -/
def updateNearestSystems (hasClient configured inCooldown : Bool) (m_hasValidPosition : Bool)
    (m_commanderX m_commanderY m_commanderZ : ℚ) (now : Int) (th : NearestThrottle) :
    NearestThrottle × Option NearestRequest :=
  if !hasClient then (th, none)
  else if !configured then (th, none)
  else if inCooldown then (th, none)
  else if th.lastRequestPosition == positionText m_commanderX m_commanderY m_commanderZ &&
      withinTwoSeconds th.lastRequestTime now then
    (th, none)
  else
    ({ lastRequestTime := some now
       lastRequestPosition := positionText m_commanderX m_commanderY m_commanderZ },
      some (if m_hasValidPosition then NearestRequest.getSystemsNear
            else NearestRequest.getSystems))

/-- The statics of `updateNearestSystems` before its first call. -/
def NearestThrottle.initial : NearestThrottle :=
  { lastRequestTime := none, lastRequestPosition := "" }

/-- The coordinate 25899.96875 (828799 / 32), a finite double. -/
def coordNear : ℚ :=
  { num := 828799, den := 32, den_nz := by decide, reduced := by decide }

/-- The coordinate 25900.03125 (828801 / 32), a finite double. -/
def coordFar : ℚ :=
  { num := 828801, den := 32, den_nz := by decide, reduced := by decide }

/-- One entry of `m_nearestSystems` / `m_unclaimedSystems` as the cursor code
reads it: the name, the claimed flag and the number the sort comparator parses
from the `distance` text (tenths of a light-year). -/
structure NearSystem where
  name : String
  claimed : Bool
  distance : Int
deriving DecidableEq

/-- The members of `EDRHController` behind the unclaimed-systems cursor. -/
structure UnclaimedCursor where
  m_nearestSystems : List NearSystem
  m_unclaimedSystems : List NearSystem
  m_unclaimedIndex : Int
deriving DecidableEq

/-- The cursor members after the constructor `EDRHController::EDRHController`. -/
def UnclaimedCursor.ctor : UnclaimedCursor :=
  { m_nearestSystems := [], m_unclaimedSystems := [], m_unclaimedIndex := 0 }

/-- Member function `EDRHController::updateUnclaimedSystems`, as far as the
cursor members go: the unclaimed entries of `m_nearestSystems`, sorted by
distance, replace `m_unclaimedSystems`; `m_unclaimedIndex` is not assigned. (The
order `std::sort` gives to entries at the same distance is fixed here.) -/
def updateUnclaimedSystems (c : UnclaimedCursor) : UnclaimedCursor :=
  { c with
    m_unclaimedSystems :=
      (c.m_nearestSystems.filter (fun system => !system.claimed)).insertionSort
        (fun a b => a.distance ≤ b.distance) }

/-- Member function `EDRHController::prevUnclaimed`. -/
def prevUnclaimed (c : UnclaimedCursor) : UnclaimedCursor :=
  if !c.m_unclaimedSystems.isEmpty && c.m_unclaimedIndex > 0 then
    updateUnclaimedSystems { c with m_unclaimedIndex := c.m_unclaimedIndex - 1 }
  else c

/-- Member function `EDRHController::nextUnclaimed`. -/
def nextUnclaimed (c : UnclaimedCursor) : UnclaimedCursor :=
  if !c.m_unclaimedSystems.isEmpty &&
      c.m_unclaimedIndex < (c.m_unclaimedSystems.length : Int) - 1 then
    updateUnclaimedSystems { c with m_unclaimedIndex := c.m_unclaimedIndex + 1 }
  else c

/-- The tail of `EDRHController::handleNearestSystemsReceived`: the processed list
is assigned to `m_nearestSystems` and `updateUnclaimedSystems()` is called. -/
def nearestSystemsReplaced (c : UnclaimedCursor) (systemsList : List NearSystem) :
    UnclaimedCursor :=
  updateUnclaimedSystems { c with m_nearestSystems := systemsList }

/-- The element access `m_unclaimedSystems[m_unclaimedIndex]`: `none` when the
index is out of bounds. -/
def unclaimedAt (c : UnclaimedCursor) : Option NearSystem :=
  if c.m_unclaimedIndex < 0 then none else c.m_unclaimedSystems[c.m_unclaimedIndex.toNat]?

/-- Member function `EDRHController::claimClosest`: the name handed to
`claimSystem`. `none` is no call (empty list); `some none` is the out-of-bounds
element access. -/
def claimClosest (c : UnclaimedCursor) : Option (Option String) :=
  if !c.m_unclaimedSystems.isEmpty then some ((unclaimedAt c).map (fun system => system.name))
  else none

/-- Member function `EDRHController::viewClosest`: the name handed to
`viewSystem`, read as in `claimClosest`. -/
def viewClosest (c : UnclaimedCursor) : Option (Option String) :=
  if !c.m_unclaimedSystems.isEmpty then some ((unclaimedAt c).map (fun system => system.name))
  else none

/-- Member function `EDRHController::currentUnclaimedSystemName`, which guards
the element access with the index test. -/
def currentUnclaimedSystemName (c : UnclaimedCursor) : String :=
  if !c.m_unclaimedSystems.isEmpty &&
      c.m_unclaimedIndex < (c.m_unclaimedSystems.length : Int) then
    match unclaimedAt c with
    | some system => system.name
    | none => "None"
  else "None"

/-- Three unclaimed systems near the commander. -/
def threeNear : List NearSystem :=
  [{ name := "Sol", claimed := false, distance := 0 },
   { name := "Vega", claimed := false, distance := 253 },
   { name := "Altair", claimed := false, distance := 167 }]

/-- The same neighbourhood after two of the systems were claimed. -/
def oneNear : List NearSystem :=
  [{ name := "Sol", claimed := true, distance := 0 },
   { name := "Vega", claimed := false, distance := 253 },
   { name := "Altair", claimed := true, distance := 167 }]

/-! ## Shared lemmas -/

theorem querySystemStatus_congr (s t : ClaimManager) (r : String)
    (h : t.m_takenSystemsData = s.m_takenSystemsData) :
    querySystemStatus t r = querySystemStatus s r := by
  simp [querySystemStatus, h]

theorem heldByOther_congr (s t : ClaimManager) (r : String)
    (h : t.m_takenSystemsData = s.m_takenSystemsData)
    (hc : t.m_commanderName = s.m_commanderName) :
    heldByOther t r = heldByOther s r := by
  simp [heldByOther, querySystemStatus_congr s t r h, hc]

theorem claimSystem_registry (s : ClaimManager) (r : String) :
    (claimSystem s r).state.m_takenSystemsData = s.m_takenSystemsData ∧
    (claimSystem s r).state.m_commanderName = s.m_commanderName := by
  unfold claimSystem
  split <;> simp

theorem unclaimSystem_registry (s : ClaimManager) (r : String) :
    (unclaimSystem s r).state.m_takenSystemsData = s.m_takenSystemsData ∧
    (unclaimSystem s r).state.m_commanderName = s.m_commanderName := by
  unfold unclaimSystem
  simp only []
  split_ifs <;> simp

theorem unclaimSystem_client (s : ClaimManager) (r : String) :
    (unclaimSystem s r).state.m_supabaseClient = s.m_supabaseClient := by
  unfold unclaimSystem
  simp only []
  split_ifs <;> rfl

theorem unclaimSystem_result (s : ClaimManager) (r : String) :
    (unclaimSystem s r).result =
      (!((querySystemStatus s r).claimedBy != "" &&
          (querySystemStatus s r).claimedBy != s.m_commanderName) &&
        s.m_supabaseClient) := by
  unfold unclaimSystem
  simp only []
  split_ifs with h1 h2 h3 <;> simp_all <;> tauto

theorem runOp_registry (s : ClaimManager) (op : ClaimOp) :
    (runOp s op).m_takenSystemsData = s.m_takenSystemsData ∧
    (runOp s op).m_commanderName = s.m_commanderName := by
  cases op with
  | claim r => exact claimSystem_registry s r
  | unclaim r => exact unclaimSystem_registry s r

theorem unclaimSystem_currentClaim (s : ClaimManager) (r : String) :
    (unclaimSystem s r).state.m_currentClaim = s.m_currentClaim ∨
    (unclaimSystem s r).state.m_currentClaim = "" := by
  unfold unclaimSystem
  simp only []
  split_ifs <;> simp

theorem runOp_singleActiveClaim (s : ClaimManager) (op : ClaimOp)
    (h0 : singleActiveClaim s = true) (hop : claimsAllowed s [op] = true) :
    singleActiveClaim (runOp s op) = true := by
  have hreg := runOp_registry s op
  have hcongr := heldByOther_congr s (runOp s op) (runOp s op).m_currentClaim hreg.1 hreg.2
  unfold singleActiveClaim
  rw [hcongr]
  cases op with
  | claim r =>
      simp only [claimsAllowed, List.all_cons, List.all_nil, Bool.and_true] at hop
      simp only [runOp, claimSystem]
      split
      · exact h0
      · simp [hop]
  | unclaim r =>
      rcases unclaimSystem_currentClaim s r with h | h
      · simp only [runOp, h]; exact h0
      · simp [runOp, h]

theorem prune_lookup_expired (s : ClaimManager) (r : String) (now : Int)
    (o : PendingOverride) (ho : s.m_pendingOverrides r = some o)
    (hexp : o.expireAtMs ≤ now) :
    (pruneExpiredOverrides s now).m_pendingOverrides r = none := by
  simp [pruneExpiredOverrides, ho, hexp]

theorem prune_lookup_live (s : ClaimManager) (r : String) (now : Int)
    (o : PendingOverride) (ho : s.m_pendingOverrides r = some o)
    (hlive : now < o.expireAtMs) :
    (pruneExpiredOverrides s now).m_pendingOverrides r = some o := by
  have h : ¬ o.expireAtMs ≤ now := by omega
  simp [pruneExpiredOverrides, ho, h]

theorem prune_lookup_absent (s : ClaimManager) (r : String) (now : Int)
    (ho : s.m_pendingOverrides r = none) :
    (pruneExpiredOverrides s now).m_pendingOverrides r = none := by
  simp [pruneExpiredOverrides, ho]

theorem isSystemClaimedByUser_override (s : ClaimManager) (r : String) (now now2 : Int)
    (o : PendingOverride)
    (h : (pruneExpiredOverrides s now).m_pendingOverrides r = some o) :
    (isSystemClaimedByUser s r now now2).result = o.claimed := by
  simp only [isSystemClaimedByUser, h]

theorem isSystemClaimedByUser_current (s : ClaimManager) (r : String) (now now2 : Int)
    (h : (pruneExpiredOverrides s now).m_pendingOverrides r = none)
    (hcur : s.m_currentClaim = r) (hr : r ≠ "") :
    (isSystemClaimedByUser s r now now2).result = true := by
  have hc : (pruneExpiredOverrides s now).m_currentClaim = r := hcur
  simp [isSystemClaimedByUser, h, hc, hr]

theorem getSystemClaimedBy_override (s : ClaimManager) (r : String) (now : Int)
    (o : PendingOverride)
    (h : (pruneExpiredOverrides s now).m_pendingOverrides r = some o) :
    (getSystemClaimedBy s r now).result = if o.claimed then s.m_commanderName else "" := by
  simp only [getSystemClaimedBy, h]
  rfl

theorem getSystemClaimedBy_current (s : ClaimManager) (r : String) (now : Int)
    (h : (pruneExpiredOverrides s now).m_pendingOverrides r = none)
    (hcur : s.m_currentClaim = r) (hr : r ≠ "") :
    (getSystemClaimedBy s r now).result = s.m_commanderName := by
  have hc : (pruneExpiredOverrides s now).m_currentClaim = r := hcur
  simp [getSystemClaimedBy, h, hc, hr]
  rfl

theorem getSystemClaimedBy_registry (s : ClaimManager) (r : String) (now : Int)
    (h : (pruneExpiredOverrides s now).m_pendingOverrides r = none)
    (hcur : s.m_currentClaim = "" ∨ r ≠ s.m_currentClaim) :
    (getSystemClaimedBy s r now).result = (querySystemStatus s r).claimedBy := by
  have hq : querySystemStatus (pruneExpiredOverrides s now) r = querySystemStatus s r :=
    querySystemStatus_congr s (pruneExpiredOverrides s now) r rfl
  have hc : (pruneExpiredOverrides s now).m_currentClaim = s.m_currentClaim := rfl
  have hb : (s.m_currentClaim != "" && r == s.m_currentClaim) = false := by
    rcases hcur with h1 | h1
    · simp [h1]
    · simp [h1]
  simp [getSystemClaimedBy, h, hc, hb, hq]

theorem getSystemClaimedBy_state (s : ClaimManager) (r : String) (now : Int) :
    (getSystemClaimedBy s r now).state = pruneExpiredOverrides s now := by
  simp only [getSystemClaimedBy]
  split
  · rfl
  · split <;> rfl

theorem queryCurrentClaim_state (s : ClaimManager) :
    (queryCurrentClaim s).state =
      { s with m_currentClaim := findActiveClaim s.m_commanderName s.m_takenSystemsData } := by
  unfold queryCurrentClaim
  simp only []
  split_ifs with h
  · rfl
  · have h2 : s.m_currentClaim = findActiveClaim s.m_commanderName s.m_takenSystemsData := by
      simpa using h
    cases s
    simp_all

theorem onTakenSystemsReceived_accept (s : ClaimManager) (taken : List TakenRow)
    (hlen : taken.length > 10) :
    (onTakenSystemsReceived s taken).state =
      { s with
        m_takenSystemsData := taken
        m_currentClaim := findActiveClaim s.m_commanderName taken } := by
  simp only [onTakenSystemsReceived, hlen, if_true]
  exact queryCurrentClaim_state { s with m_takenSystemsData := taken }

theorem applyLocalClaim_commander (s : ClaimManager) (r : String) (now : Int) :
    (applyLocalClaim s r now).state.m_commanderName = s.m_commanderName := by
  unfold applyLocalClaim
  split <;> rfl

theorem afterConfirmedClaim_commander (s : ClaimManager) (r : String) (now : Int) :
    (afterConfirmedClaim s r now).m_commanderName = s.m_commanderName := by
  simp only [afterConfirmedClaim, SupabaseClient.handleNetworkReply_POST_taken, List.foldl,
    deliver, onSystemClaimed, if_true]
  rw [applyLocalClaim_commander]
  exact (claimSystem_registry s r).2

theorem foreignOwner_iff (s : ClaimManager) (r : String) :
    ((querySystemStatus s r).claimedBy != "" &&
        (querySystemStatus s r).claimedBy != s.m_commanderName) = true ↔
      ∃ row, s.m_takenSystemsData.find? (fun system => system.system == r) = some row ∧
        row.by_cmdr ≠ "" ∧ isEmptyPlaceholder row.by_cmdr = false ∧
        row.by_cmdr ≠ s.m_commanderName := by
  unfold querySystemStatus
  cases hrow : s.m_takenSystemsData.find? (fun system => system.system == r) with
  | none => simp
  | some row =>
      by_cases hph : isEmptyPlaceholder row.by_cmdr = true
      · simp [hph]
      · simp [hph]

theorem applyLocal_overrides (r : String) (hr : r ≠ "") (s : ClaimManager) (a : LocalAction) :
    (applyLocal r s a).m_pendingOverrides =
      fun k => if k = r then some { claimed := a.claimed, expireAtMs := a.now + 2000 }
               else s.m_pendingOverrides k := by
  unfold applyLocal
  cases hc : a.claimed
  · simp only [Bool.false_eq_true, if_false]
    unfold applyLocalUnclaim
    simp only [beq_iff_eq, hr, if_false]
    split_ifs <;> rfl
  · simp [applyLocalClaim, hr]

theorem applyLocals_other (r : String) (hr : r ≠ "") (actions : List LocalAction) :
    ∀ (s : ClaimManager) (k : String), k ≠ r →
      (applyLocals r s actions).m_pendingOverrides k = s.m_pendingOverrides k := by
  induction actions with
  | nil => intro s k _; rfl
  | cons a rest ih =>
      intro s k hk
      have h := ih (applyLocal r s a) k hk
      simp only [applyLocals, List.foldl] at h ⊢
      rw [h, applyLocal_overrides r hr s a]
      simp [hk]

theorem applyLocalClaim_registry (s : ClaimManager) (r : String) (now : Int) :
    (applyLocalClaim s r now).state.m_takenSystemsData = s.m_takenSystemsData := by
  unfold applyLocalClaim
  split <;> rfl

theorem applyLocalUnclaim_registry (s : ClaimManager) (r : String) (now : Int) :
    (applyLocalUnclaim s r now).state.m_takenSystemsData = s.m_takenSystemsData := by
  unfold applyLocalUnclaim
  simp only []
  split_ifs <;> rfl

theorem isSystemClaimedByUser_registry_frame (s : ClaimManager) (r : String) (now now2 : Int) :
    (isSystemClaimedByUser s r now now2).state.m_takenSystemsData = s.m_takenSystemsData := by
  unfold isSystemClaimedByUser
  simp only []
  split
  · rfl
  · split
    · rfl
    · simp only [getSystemClaimedBy_state]
      rfl

theorem step_registry_frame (s : ClaimManager) (op : ManagerOp)
    (hop : op.isAcceptedRefresh = false) :
    (ManagerOp.step s op).m_takenSystemsData = s.m_takenSystemsData := by
  cases op with
  | initializeManager c n =>
      simp only [ManagerOp.step, initializeManager, queryCurrentClaim_state]
  | canClaimSystem r => rfl
  | claimSystem r => exact (claimSystem_registry s r).1
  | unclaimSystem r => exact (unclaimSystem_registry s r).1
  | applyLocalClaim r now => exact applyLocalClaim_registry s r now
  | applyLocalUnclaim r now => exact applyLocalUnclaim_registry s r now
  | getSystemClaimedBy r now =>
      simp only [ManagerOp.step, getSystemClaimedBy_state]
      rfl
  | isSystemClaimedByUser r now now2 => exact isSystemClaimedByUser_registry_frame s r now now2
  | isSystemCompleted r => rfl
  | getClaimCount => rfl
  | getClaimStatusDebug r => rfl
  | refreshClaimData =>
      simp only [ManagerOp.step, refreshClaimData]
      split <;> rfl
  | onTakenSystemsReceived taken =>
      have hsmall : ¬ taken.length > 10 := by
        simpa [ManagerOp.isAcceptedRefresh] using hop
      simp [ManagerOp.step, onTakenSystemsReceived, hsmall]

theorem step_registry_accept (s : ClaimManager) (taken : List TakenRow)
    (hlen : taken.length > 10) :
    (ManagerOp.step s (ManagerOp.onTakenSystemsReceived taken)).m_takenSystemsData = taken := by
  simp only [ManagerOp.step, onTakenSystemsReceived_accept s taken hlen]

theorem run_registry_cases (ops : List ManagerOp) :
    ∀ s : ClaimManager,
      ((ManagerOp.run s ops).m_takenSystemsData = s.m_takenSystemsData ∧
        ∀ op ∈ ops, op.isAcceptedRefresh = false) ∨
      ∃ before taken after,
        ops = before ++ ManagerOp.onTakenSystemsReceived taken :: after ∧
        taken.length > 10 ∧ (∀ op ∈ after, op.isAcceptedRefresh = false) ∧
        (ManagerOp.run s ops).m_takenSystemsData = taken := by
  induction ops with
  | nil =>
      intro s
      exact Or.inl ⟨rfl, by simp⟩
  | cons op rest ih =>
      intro s
      have hrun : ManagerOp.run s (op :: rest) = ManagerOp.run (ManagerOp.step s op) rest := rfl
      rcases ih (ManagerOp.step s op) with ⟨hreg, hnone⟩ | ⟨before, taken, after, hops, hlen, hafter, hreg⟩
      · cases hacc : op.isAcceptedRefresh with
        | false =>
            refine Or.inl ⟨?_, ?_⟩
            · rw [hrun, hreg]
              exact step_registry_frame s op hacc
            · intro op2 hmem
              rcases List.mem_cons.mp hmem with h | h
              · exact h ▸ hacc
              · exact hnone op2 h
        | true =>
            cases op with
            | onTakenSystemsReceived taken =>
                have hlen : taken.length > 10 := by
                  simpa [ManagerOp.isAcceptedRefresh] using hacc
                refine Or.inr ⟨[], taken, rest, rfl, hlen, hnone, ?_⟩
                rw [hrun, hreg]
                exact step_registry_accept s taken hlen
            | _ => simp [ManagerOp.isAcceptedRefresh] at hacc
      · refine Or.inr ⟨op :: before, taken, after, ?_, hlen, hafter, ?_⟩
        · simp [hops]
        · rw [hrun]
          exact hreg

theorem isSystemClaimedByUser_registry (s : ClaimManager) (r : String) (now now2 : Int)
    (h : (pruneExpiredOverrides s now).m_pendingOverrides r = none)
    (hcur : s.m_currentClaim = "" ∨ r ≠ s.m_currentClaim) :
    (isSystemClaimedByUser s r now now2).result =
      ((querySystemStatus s r).claimedBy == s.m_commanderName) := by
  have hc : (pruneExpiredOverrides s now).m_currentClaim = s.m_currentClaim := rfl
  have hn : (pruneExpiredOverrides s now).m_commanderName = s.m_commanderName := rfl
  have hb : (s.m_currentClaim != "" && r == s.m_currentClaim) = false := by
    rcases hcur with h1 | h1
    · simp [h1]
    · simp [h1]
  have hinner := getSystemClaimedBy_registry (pruneExpiredOverrides s now) r now2
    (prune_lookup_absent _ r now2 h) hcur
  have hq : querySystemStatus (pruneExpiredOverrides s now) r = querySystemStatus s r :=
    querySystemStatus_congr s (pruneExpiredOverrides s now) r rfl
  simp only [isSystemClaimedByUser, h, hc, hb, hn, hinner, hq]
  rfl

/-! ## Theorems -/

/-- C1 (counterexample): Alice holds no claim and the Registry shows `Sol` held by
Bob with `done == false`; the state satisfies the property, and after the single
call `claimSystem("Sol")` her `m_currentClaim` is `Sol`, a resource the Registry
shows as held by a different owner with `done == false`. -/
theorem single_active_claim_counterexample :
    singleActiveClaim (mkManager "Alice" [mkRow "Sol" "Bob" false]) = true ∧
    (runOps (mkManager "Alice" [mkRow "Sol" "Bob" false])
        [ClaimOp.claim "Sol"]).m_currentClaim = "Sol" ∧
    singleActiveClaim (runOps (mkManager "Alice" [mkRow "Sol" "Bob" false])
        [ClaimOp.claim "Sol"]) = false := by
  decide

/-- C1 (amended): starting from a state in which the property holds, after every
sequence of claimSystem / unclaimSystem calls in which each claimed resource is
one the Registry does not show as held by a different owner with `done == false`,
`m_currentClaim` is empty or a resource the Registry does not show as held by a
different owner with `done == false`. -/
theorem single_active_claim_amended (s : ClaimManager) (ops : List ClaimOp)
    (h0 : singleActiveClaim s = true) (hops : claimsAllowed s ops = true) :
    singleActiveClaim (runOps s ops) = true := by
  induction ops generalizing s with
  | nil => exact h0
  | cons op rest ih =>
      have hsplit : claimsAllowed s [op] = true ∧ claimsAllowed s rest = true := by
        simpa [claimsAllowed] using hops
      have hreg := runOp_registry s op
      have hrest : claimsAllowed (runOp s op) rest = true := by
        have hfun : ∀ r, heldByOther (runOp s op) r = heldByOther s r :=
          fun r => heldByOther_congr s (runOp s op) r hreg.1 hreg.2
        simpa [claimsAllowed, hfun] using hsplit.2
      exact ih (runOp s op) (runOp_singleActiveClaim s op h0 hsplit.1) hrest

/-- C1 (witness): Alice claims `Vega`, releases it and claims `Achenar` while the
Registry shows `Sol` held by Bob. -/
theorem single_active_claim_amended_witness :
    singleActiveClaim (mkManager "Alice" [mkRow "Sol" "Bob" false]) = true ∧
    claimsAllowed (mkManager "Alice" [mkRow "Sol" "Bob" false])
      [ClaimOp.claim "Vega", ClaimOp.unclaim "Vega", ClaimOp.claim "Achenar"] = true ∧
    singleActiveClaim (runOps (mkManager "Alice" [mkRow "Sol" "Bob" false])
      [ClaimOp.claim "Vega", ClaimOp.unclaim "Vega", ClaimOp.claim "Achenar"]) = true :=
  ⟨by decide, by decide,
    single_active_claim_amended (mkManager "Alice" [mkRow "Sol" "Bob" false])
      [ClaimOp.claim "Vega", ClaimOp.unclaim "Vega", ClaimOp.claim "Achenar"]
      (by decide) (by decide)⟩

/-- C2 (counterexample): Bob holds no claim and the Registry record of `Sol` has
owner Alice and `done == true`; `canClaimSystem("Sol")` returns false. -/
theorem done_reclaim_counterexample :
    (mkManager "Bob" [mkRow "Sol" "Alice" true]).m_takenSystemsData.find?
        (fun system => system.system == "Sol") = some (mkRow "Sol" "Alice" true) ∧
    canClaimSystem (mkManager "Bob" [mkRow "Sol" "Alice" true]) "Sol" = false := by
  decide

/-- C2 (amended): for every resource `r` whose Registry record has owner "Alice"
and for caller "Bob" holding no active claim, `canClaimSystem(r)` returns false,
with `done == true` as with `done == false`. -/
theorem done_reclaim_amended (s : ClaimManager) (r : String) (row : TakenRow)
    (hBob : s.m_commanderName = "Bob") (hNone : s.m_currentClaim = "")
    (hrow : s.m_takenSystemsData.find? (fun system => system.system == r) = some row)
    (hAlice : row.by_cmdr = "Alice") :
    canClaimSystem s r = false := by
  have hph : isEmptyPlaceholder "Alice" = false := by decide
  simp [canClaimSystem, hasActiveClaim, hNone, querySystemStatus, hrow, hAlice, hph, hBob]

/-- C2 (witness): the record of `Sol` is Alice's and done, the caller is Bob. -/
theorem done_reclaim_amended_witness :
    (mkManager "Bob" [mkRow "Sol" "Alice" true]).m_commanderName = "Bob" ∧
    (mkManager "Bob" [mkRow "Sol" "Alice" true]).m_currentClaim = "" ∧
    (mkRow "Sol" "Alice" true).by_cmdr = "Alice" ∧
    canClaimSystem (mkManager "Bob" [mkRow "Sol" "Alice" true]) "Sol" = false :=
  ⟨rfl, rfl, rfl,
    done_reclaim_amended (mkManager "Bob" [mkRow "Sol" "Alice" true]) "Sol"
      (mkRow "Sol" "Alice" true) rfl rfl (by decide) rfl⟩

/-- C3 (counterexample): with a store adapter present, (1) an override for `Sol`
with `claimed == false` that is still live makes `isSystemClaimedByUser("Sol")`
false right after `claimSystem("Sol")`, and (2) for the empty resource name the
query is false right after `claimSystem("")`. -/
theorem override_precedence_counterexample :
    (isSystemClaimedByUser
        (claimSystem
          { mkManager "Alice" [] with
            m_pendingOverrides := oneOverride "Sol" { claimed := false, expireAtMs := 2000 } }
          "Sol").state "Sol" 100 100).result = false ∧
    (isSystemClaimedByUser (claimSystem (mkManager "Alice" []) "").state "" 100 100).result
      = false := by
  decide

/-- C3 (amended): for every state with a store adapter and every non-empty
resource `r`, right after `claimSystem(r)` and before any refresh,
`isSystemClaimedByUser(r)` returns true whatever the Registry holds, provided the
Override Table holds no entry for `r` with `claimed == false` that is still live
at the time of the query. -/
theorem override_precedence_amended (s : ClaimManager) (r : String) (now now2 : Int)
    (hclient : s.m_supabaseClient = true) (hr : r ≠ "")
    (hov : ∀ o, s.m_pendingOverrides r = some o → now < o.expireAtMs → o.claimed = true) :
    (isSystemClaimedByUser (claimSystem s r).state r now now2).result = true := by
  have hst : (claimSystem s r).state = { s with m_currentClaim := r } := by
    simp [claimSystem, hclient]
  rw [hst]
  cases ho : s.m_pendingOverrides r with
  | none =>
      exact isSystemClaimedByUser_current _ r now now2
        (prune_lookup_absent _ r now ho) rfl hr
  | some o =>
      by_cases hexp : o.expireAtMs ≤ now
      · exact isSystemClaimedByUser_current _ r now now2
          (prune_lookup_expired _ r now o ho hexp) rfl hr
      · have hlive : now < o.expireAtMs := by omega
        exact (isSystemClaimedByUser_override { s with m_currentClaim := r } r now now2 o
          (prune_lookup_live _ r now o ho hlive)).trans (hov o ho hlive)

/-- C3 (witness): Alice claims `Sol` while the Registry shows it held by Bob and
an expired `claimed == false` override for `Sol` is still in the table. -/
theorem override_precedence_amended_witness :
    (isSystemClaimedByUser
        (claimSystem
          { mkManager "Alice" [mkRow "Sol" "Bob" false] with
            m_pendingOverrides := oneOverride "Sol" { claimed := false, expireAtMs := 50 } }
          "Sol").state "Sol" 100 101).result = true :=
  override_precedence_amended
    { mkManager "Alice" [mkRow "Sol" "Bob" false] with
      m_pendingOverrides := oneOverride "Sol" { claimed := false, expireAtMs := 50 } }
    "Sol" 100 101 rfl (by decide)
    (by
      intro o ho hlive
      have h : o = { claimed := false, expireAtMs := 50 } := by
        simpa [mkManager, oneOverride] using ho.symm
      subst h
      exact absurd hlive (by decide))

/-- C4 (counterexample): Alice's `m_currentClaim` is `Sol`, the Registry shows
`Sol` held by Bob, and the override for `Sol` expired at 100; at time 101
`getSystemClaimedBy("Sol")` is "Alice", not the Registry owner "Bob". -/
theorem override_expiry_counterexample :
    ({ mkManager "Alice" [mkRow "Sol" "Bob" false] with
        m_currentClaim := "Sol"
        m_pendingOverrides := oneOverride "Sol" { claimed := true, expireAtMs := 100 } }
      : ClaimManager).m_pendingOverrides "Sol" = some { claimed := true, expireAtMs := 100 } ∧
    (querySystemStatus
        { mkManager "Alice" [mkRow "Sol" "Bob" false] with
          m_currentClaim := "Sol"
          m_pendingOverrides := oneOverride "Sol" { claimed := true, expireAtMs := 100 } }
        "Sol").claimedBy = "Bob" ∧
    (getSystemClaimedBy
        { mkManager "Alice" [mkRow "Sol" "Bob" false] with
          m_currentClaim := "Sol"
          m_pendingOverrides := oneOverride "Sol" { claimed := true, expireAtMs := 100 } }
        "Sol" 101).result = "Alice" := by
  decide

/-- C4 (amended): for every state holding an override for `r` and every time
`now > expireAtMs` of that override, the override is pruned and
`getSystemClaimedBy(r)` returns the caller's identity when `r` is the non-empty
`m_currentClaim`, and otherwise the owner recorded for `r` in the Registry
(placeholder read as unclaimed). -/
theorem override_expiry_amended (s : ClaimManager) (r : String) (now : Int)
    (o : PendingOverride) (ho : s.m_pendingOverrides r = some o)
    (hexp : now > o.expireAtMs) :
    (getSystemClaimedBy s r now).state.m_pendingOverrides r = none ∧
    (getSystemClaimedBy s r now).result =
      if s.m_currentClaim ≠ "" ∧ r = s.m_currentClaim then s.m_commanderName
      else (querySystemStatus s r).claimedBy := by
  have hnone : (pruneExpiredOverrides s now).m_pendingOverrides r = none :=
    prune_lookup_expired s r now o ho (by omega)
  refine ⟨by rw [getSystemClaimedBy_state]; exact hnone, ?_⟩
  by_cases h : s.m_currentClaim ≠ "" ∧ r = s.m_currentClaim
  · rw [if_pos h]
    exact getSystemClaimedBy_current s r now hnone h.2.symm (h.2 ▸ h.1)
  · rw [if_neg h]
    apply getSystemClaimedBy_registry s r now hnone
    by_cases h1 : s.m_currentClaim = ""
    · exact Or.inl h1
    · exact Or.inr (fun h2 => h ⟨h1, h2⟩)

/-- C4 (witness): the override of `Vega` expired at 100; at 101 the answer is the
Registry owner Bob. -/
theorem override_expiry_amended_witness :
    (getSystemClaimedBy
        { mkManager "Alice" [mkRow "Vega" "Bob" false] with
          m_pendingOverrides := oneOverride "Vega" { claimed := true, expireAtMs := 100 } }
        "Vega" 101).result = "Bob" :=
  (override_expiry_amended
    { mkManager "Alice" [mkRow "Vega" "Bob" false] with
      m_pendingOverrides := oneOverride "Vega" { claimed := true, expireAtMs := 100 } }
    "Vega" 101 { claimed := true, expireAtMs := 100 } (by decide) (by decide)).2.trans
    (by decide)

/-- C5: for every state and every refresh response of 10 rows or fewer,
`onTakenSystemsReceived` leaves the whole object unchanged, so the Registry,
`m_currentClaim` and the Override Table are what they were, and no signal is
emitted. -/
theorem partial_refresh_rejected (s : ClaimManager) (taken : List TakenRow)
    (hsmall : taken.length ≤ 10) :
    (onTakenSystemsReceived s taken).state = s ∧
    (onTakenSystemsReceived s taken).state.m_takenSystemsData = s.m_takenSystemsData ∧
    (onTakenSystemsReceived s taken).state.m_currentClaim = s.m_currentClaim ∧
    (onTakenSystemsReceived s taken).state.m_pendingOverrides = s.m_pendingOverrides ∧
    (onTakenSystemsReceived s taken).effects = [] := by
  have h : ¬ taken.length > 10 := by omega
  simp [onTakenSystemsReceived, h]

/-- C5 (witness): a one-row response for `Sol` delivered to a manager that knows
`Vega`. -/
theorem partial_refresh_rejected_witness :
    [mkRow "Sol" "Alice" false].length ≤ 10 ∧
    (onTakenSystemsReceived (mkManager "Alice" [mkRow "Vega" "Bob" false])
        [mkRow "Sol" "Alice" false]).state.m_takenSystemsData = [mkRow "Vega" "Bob" false] :=
  ⟨by decide,
    (partial_refresh_rejected (mkManager "Alice" [mkRow "Vega" "Bob" false])
      [mkRow "Sol" "Alice" false] (by decide)).2.1⟩

/-- C6: the request issued by `SupabaseClient::unclaimSystem(r)` (a PATCH of
`by_cmdr` to "empty" on the row `system == r`), served once or twice in a row,
leaves the same remote table; a row for `r` is still there with owner "empty"
and its other fields unchanged; every other key is untouched and no row is
removed; and a second local `ClaimManager::unclaimSystem(r)` returns what the
first returned. -/
theorem sentinel_idempotence (c : SupabaseClient) (t : RemoteTable) (r : String)
    (patchReply : Bool)
    (hurl : c.m_supabaseUrl ≠ "") (hkey : c.m_supabaseKey ≠ "")
    (hcmd : c.m_currentCommander ≠ "") (hknown : c.m_currentCommander ≠ "Unknown") :
    ClientEffect.patchTaken r "empty" ∈ SupabaseClient.unclaimSystem c r patchReply ∧
    (t.serveAll (SupabaseClient.unclaimSystem c r patchReply)).serveAll
        (SupabaseClient.unclaimSystem c r patchReply)
      = t.serveAll (SupabaseClient.unclaimSystem c r patchReply) ∧
    (∀ row, t r = some row →
      t.serveAll (SupabaseClient.unclaimSystem c r patchReply) r
        = some { row with by_cmdr := "empty" }) ∧
    (∀ k, k ≠ r → t.serveAll (SupabaseClient.unclaimSystem c r patchReply) k = t k) ∧
    (∀ k, (t k).isSome = true →
      (t.serveAll (SupabaseClient.unclaimSystem c r patchReply) k).isSome = true) ∧
    (∀ s : ClaimManager,
      (unclaimSystem (unclaimSystem s r).state r).result = (unclaimSystem s r).result) := by
  have hserve : t.serveAll (SupabaseClient.unclaimSystem c r patchReply)
      = t.patchOwner r "empty" := by
    cases patchReply <;>
      simp [SupabaseClient.unclaimSystem, hurl, hkey, hcmd, hknown, RemoteTable.serveAll,
        RemoteTable.serve]
  have hserve2 : (t.patchOwner r "empty").serveAll (SupabaseClient.unclaimSystem c r patchReply)
      = (t.patchOwner r "empty").patchOwner r "empty" := by
    cases patchReply <;>
      simp [SupabaseClient.unclaimSystem, hurl, hkey, hcmd, hknown, RemoteTable.serveAll,
        RemoteTable.serve]
  rw [hserve, hserve2]
  refine ⟨?_, ?_, ?_, ?_, ?_, ?_⟩
  · cases patchReply <;> simp [SupabaseClient.unclaimSystem, hurl, hkey, hcmd, hknown]
  · funext k
    by_cases hk : k = r
    · cases hrow : t r <;> simp [RemoteTable.patchOwner, hk, hrow]
    · simp [RemoteTable.patchOwner, hk]
  · intro row hrow
    simp [RemoteTable.patchOwner, hrow]
  · intro k hk
    simp [RemoteTable.patchOwner, hk]
  · intro k hsome
    by_cases hk : k = r
    · subst hk
      simpa [RemoteTable.patchOwner] using hsome
    · simpa [RemoteTable.patchOwner, hk] using hsome
  · intro s
    have hreg := unclaimSystem_registry s r
    have hq := querySystemStatus_congr s (unclaimSystem s r).state r hreg.1
    rw [unclaimSystem_result (unclaimSystem s r).state r, unclaimSystem_result s r, hq, hreg.2,
      unclaimSystem_client]

/-- C6 (witness): Alice releases `Sol`; the remote table holds her row for `Sol`. -/
theorem sentinel_idempotence_witness :
    ((oneRowTable (mkRow "Sol" "Alice" false)).serveAll
        (SupabaseClient.unclaimSystem (mkClient "Alice") "Sol" true)).serveAll
        (SupabaseClient.unclaimSystem (mkClient "Alice") "Sol" true)
      = (oneRowTable (mkRow "Sol" "Alice" false)).serveAll
        (SupabaseClient.unclaimSystem (mkClient "Alice") "Sol" true) ∧
    (oneRowTable (mkRow "Sol" "Alice" false)).serveAll
        (SupabaseClient.unclaimSystem (mkClient "Alice") "Sol" true) "Sol"
      = some (mkRow "Sol" "empty" false) :=
  ⟨(sentinel_idempotence (mkClient "Alice") (oneRowTable (mkRow "Sol" "Alice" false)) "Sol" true
      (by decide) (by decide) (by decide) (by decide)).2.1,
    by decide⟩

/-- C7 (counterexample): (1) the remote table holds only Alice's row for `Sol`:
the one-row refresh response is ignored and the Registry, empty before, does not
contain the record; (2) the table has eleven rows and Alice has an active row
for `Vega` ahead of her row for `Sol`: after the refresh her `m_currentClaim` is
`Vega`. -/
theorem claim_scenario_counterexample :
    (onTakenSystemsReceived (afterConfirmedClaim (mkManager "Alice" []) "Sol" 100)
        [mkRow "Sol" "Alice" false]).state.m_takenSystemsData = [] ∧
    mkRow "Sol" "Alice" false ∈ twoActiveTable ∧
    (onTakenSystemsReceived (afterConfirmedClaim (mkManager "Alice" []) "Sol" 100)
        twoActiveTable).state.m_currentClaim = "Vega" := by
  decide

/-- C7 (amended): for every remote table of more than 10 rows in which Alice's
first row with `done == false`, in response order, is the row for "Sol", after
Alice's claim of "Sol" is confirmed by the store and the full-table refresh
response is delivered to `onTakenSystemsReceived`, the Registry is the response,
contains that record {system: "Sol", by_cmdr: "Alice", done: false}, and Alice's
`m_currentClaim` is "Sol". -/
theorem claim_scenario_amended (s : ClaimManager) (now : Int) (taken : List TakenRow)
    (row : TakenRow)
    (hAlice : s.m_commanderName = "Alice")
    (hlen : taken.length > 10)
    (hfirst : taken.find? (fun system => system.by_cmdr == "Alice" && !system.done) = some row)
    (hsol : row.system = "Sol") :
    (onTakenSystemsReceived (afterConfirmedClaim s "Sol" now) taken).state.m_takenSystemsData
      = taken ∧
    row ∈ (onTakenSystemsReceived (afterConfirmedClaim s "Sol" now)
      taken).state.m_takenSystemsData ∧
    row.system = "Sol" ∧ row.by_cmdr = "Alice" ∧ row.done = false ∧
    (onTakenSystemsReceived (afterConfirmedClaim s "Sol" now) taken).state.m_currentClaim
      = "Sol" := by
  have hcmd : (afterConfirmedClaim s "Sol" now).m_commanderName = "Alice" :=
    (afterConfirmedClaim_commander s "Sol" now).trans hAlice
  have hfound : findActiveClaim "Alice" taken = "Sol" := by
    simp [findActiveClaim, hfirst, hsol]
  have hst := onTakenSystemsReceived_accept (afterConfirmedClaim s "Sol" now) taken hlen
  rw [hcmd, hfound] at hst
  have hprop := List.find?_some hfirst
  have hmem : row ∈ taken := List.mem_of_find?_eq_some hfirst
  simp only [Bool.and_eq_true, beq_iff_eq, Bool.not_eq_true'] at hprop
  rw [hst]
  exact ⟨rfl, hmem, hsol, hprop.1, hprop.2, rfl⟩

/-- C7 (witness): the eleven-row table in which the row for `Sol` is Alice's only
active row, delivered to a manager whose Registry was empty. -/
theorem claim_scenario_amended_witness :
    fullTable.length > 10 ∧
    mkRow "Sol" "Alice" false ∈
      (onTakenSystemsReceived (afterConfirmedClaim (mkManager "Alice" []) "Sol" 100)
        fullTable).state.m_takenSystemsData ∧
    (onTakenSystemsReceived (afterConfirmedClaim (mkManager "Alice" []) "Sol" 100)
        fullTable).state.m_currentClaim = "Sol" :=
  have h := claim_scenario_amended (mkManager "Alice" []) 100 fullTable
    (mkRow "Sol" "Alice" false) rfl (by decide) (by decide) rfl
  ⟨by decide, h.2.1, h.2.2.2.2.2⟩

/-- C8: in every state with a non-empty `m_currentClaim`, `canClaimSystem(r)`
returns false for every resource `r`. -/
theorem active_claim_blocks (s : ClaimManager) (r : String)
    (hactive : s.m_currentClaim ≠ "") :
    canClaimSystem s r = false := by
  simp [canClaimSystem, hasActiveClaim, hactive]

/-- C8 (witness): Alice holds `Sol`; she can claim neither `Sol` nor the
unclaimed `Vega`. -/
theorem active_claim_blocks_witness :
    canClaimSystem { mkManager "Alice" [mkRow "Vega" "empty" false] with m_currentClaim := "Sol" }
      "Sol" = false ∧
    canClaimSystem { mkManager "Alice" [mkRow "Vega" "empty" false] with m_currentClaim := "Sol" }
      "Vega" = false :=
  ⟨active_claim_blocks _ "Sol" (by decide), by decide⟩

/-- C9: for every caller holding no active claim and every resource `r` that has
no Registry record, or whose Registry record has the placeholder owner "empty"
in any letter case (whatever its done flag), `canClaimSystem(r)` returns true. -/
theorem unclaimed_is_claimable (s : ClaimManager) (r : String)
    (hNone : s.m_currentClaim = "")
    (hun : ∀ row, s.m_takenSystemsData.find? (fun system => system.system == r) = some row →
      isEmptyPlaceholder row.by_cmdr = true) :
    canClaimSystem s r = true := by
  cases hrow : s.m_takenSystemsData.find? (fun system => system.system == r) with
  | none => simp [canClaimSystem, hasActiveClaim, hNone, querySystemStatus, hrow]
  | some row =>
      have hph := hun row hrow
      simp [canClaimSystem, hasActiveClaim, hNone, querySystemStatus, hrow, hph]

/-- C9 (witness): Bob, holding no claim, asks about `Sol`, whose record has owner
"EMPTY" and `done == true`. -/
theorem unclaimed_is_claimable_witness :
    isEmptyPlaceholder "EMPTY" = true ∧
    canClaimSystem (mkManager "Bob" [mkRow "Vega" "Alice" false, mkRow "Sol" "EMPTY" true])
      "Sol" = true :=
  ⟨by decide,
    unclaimed_is_claimable
      (mkManager "Bob" [mkRow "Vega" "Alice" false, mkRow "Sol" "EMPTY" true]) "Sol" rfl
      (by
        intro row hrow
        have h : row = mkRow "Sol" "EMPTY" true := by
          have h2 : (mkManager "Bob" [mkRow "Vega" "Alice" false,
              mkRow "Sol" "EMPTY" true]).m_takenSystemsData.find?
              (fun system => system.system == "Sol") = some (mkRow "Sol" "EMPTY" true) := by
            decide
          exact Option.some.inj (hrow.symm.trans h2)
        subst h
        decide)⟩

/-- C10 (counterexample): Alice holds no claim and the Registry record of `Sol`
is her own with `done == false`; `canClaimSystem("Sol")` returns false. -/
theorem own_record_counterexample :
    (mkManager "Alice" [mkRow "Sol" "Alice" false]).m_currentClaim = "" ∧
    canClaimSystem (mkManager "Alice" [mkRow "Sol" "Alice" false]) "Sol" = false := by
  decide

/-- C10 (amended): for every caller holding no active claim and every resource
`r` whose Registry record has owner equal to the caller, `canClaimSystem(r)`
returns true when the record's done flag is true; when the done flag is false it
returns false, unless the caller's name is empty or the placeholder "empty", in
which case the record reads as unclaimed and the result is true. -/
theorem own_record_amended (s : ClaimManager) (r : String) (row : TakenRow)
    (hNone : s.m_currentClaim = "")
    (hrow : s.m_takenSystemsData.find? (fun system => system.system == r) = some row)
    (hown : row.by_cmdr = s.m_commanderName) :
    canClaimSystem s r =
      (row.done || s.m_commanderName == "" || isEmptyPlaceholder s.m_commanderName) := by
  by_cases hph : isEmptyPlaceholder s.m_commanderName = true
  · simp [canClaimSystem, hasActiveClaim, hNone, querySystemStatus, hrow, hown, hph]
  · by_cases hempty : s.m_commanderName = ""
    · simp [canClaimSystem, hasActiveClaim, hNone, querySystemStatus, hrow, hown, hph, hempty]
    · cases hdone : row.done <;>
        simp [canClaimSystem, hasActiveClaim, hNone, querySystemStatus, hrow, hown, hph, hempty,
          hdone]

/-- C10 (witness): Alice's own record of `Sol` is done, so she can claim it
again. -/
theorem own_record_amended_witness :
    canClaimSystem (mkManager "Alice" [mkRow "Sol" "Alice" true]) "Sol" = true :=
  (own_record_amended (mkManager "Alice" [mkRow "Sol" "Alice" true]) "Sol"
    (mkRow "Sol" "Alice" true) rfl (by decide) rfl).trans (by decide)

/-- C11 (counterexample): Alice holds no claim, the override on `Sol` has
`claimed == false` and is live until 2000, and the Registry shows `Sol` held by
Bob with `done == false`; `canClaimSystem("Sol")` returns false. -/
theorem can_claim_override_counterexample :
    ({ mkManager "Alice" [mkRow "Sol" "Bob" false] with
        m_pendingOverrides := oneOverride "Sol" { claimed := false, expireAtMs := 2000 } }
      : ClaimManager).m_pendingOverrides "Sol" = some { claimed := false, expireAtMs := 2000 } ∧
    canClaimSystem
      { mkManager "Alice" [mkRow "Sol" "Bob" false] with
        m_pendingOverrides := oneOverride "Sol" { claimed := false, expireAtMs := 2000 } }
      "Sol" = false := by
  decide

/-- C11 (amended): `canClaimSystem` determines the owner from the Registry alone.
For every state with no active claim, with or without a live override on `r`
with `claimed == false`, the result of `canClaimSystem(r)` is what it is with
any other Override Table, and it is true exactly when the Registry shows `r`
unclaimed (no record, blank or placeholder owner) or shows the caller's own
record with `done == true`. -/
theorem can_claim_override_amended (s : ClaimManager) (r : String)
    (hNone : s.m_currentClaim = "") :
    (∀ overrides, canClaimSystem { s with m_pendingOverrides := overrides } r
      = canClaimSystem s r) ∧
    canClaimSystem s r =
      ((querySystemStatus s r).claimedBy == "" ||
        ((querySystemStatus s r).claimedBy == s.m_commanderName &&
          (querySystemStatus s r).isDone)) := by
  refine ⟨fun overrides => rfl, ?_⟩
  have hok : (querySystemStatus s r).ok = true := by
    unfold querySystemStatus
    split <;> rfl
  simp only [canClaimSystem, hasActiveClaim, hNone, hok]
  by_cases h1 : (querySystemStatus s r).claimedBy = ""
  · simp [h1]
  · by_cases h2 : (querySystemStatus s r).claimedBy = s.m_commanderName
    · have h3 : s.m_commanderName ≠ "" := h2 ▸ h1
      cases hd : (querySystemStatus s r).isDone <;> simp [h2, hd, h3]
    · simp [h1, h2]

/-- C11 (witness): the override on `Sol` says unclaimed and is live at 100; the
Registry shows `Sol` with the placeholder owner, so Alice can claim it. -/
theorem can_claim_override_amended_witness :
    canClaimSystem
      { mkManager "Alice" [mkRow "Sol" "empty" false] with
        m_pendingOverrides := oneOverride "Sol" { claimed := false, expireAtMs := 2000 } }
      "Sol" = true :=
  (can_claim_override_amended
    { mkManager "Alice" [mkRow "Sol" "empty" false] with
      m_pendingOverrides := oneOverride "Sol" { claimed := false, expireAtMs := 2000 } }
    "Sol" rfl).2.trans (by decide)

/-- C12: resolution order of `getSystemClaimedBy(r)` at time `now`, for every
state. The object afterwards is the pruned one: every override with
`expireAtMs <= now` is gone, every other is kept. An override for `r` that is
still live (`now < expireAtMs`) answers: the caller's identity when it is
claimed, empty when it is not. Otherwise, if `r` is the non-empty
`m_currentClaim` the answer is the caller's identity. Otherwise the answer is
the `by_cmdr` of the first Registry record whose `system` is `r`, the
placeholder "empty" (any letter case) read as empty, and empty when there is no
record. -/
theorem resolution_order (s : ClaimManager) (r : String) (now : Int) :
    (getSystemClaimedBy s r now).state.m_pendingOverrides =
      (fun k => (s.m_pendingOverrides k).filter (fun o => decide (now < o.expireAtMs))) ∧
    (getSystemClaimedBy s r now).state.m_currentClaim = s.m_currentClaim ∧
    (getSystemClaimedBy s r now).state.m_takenSystemsData = s.m_takenSystemsData ∧
    (getSystemClaimedBy s r now).result =
      match (s.m_pendingOverrides r).filter (fun o => decide (now < o.expireAtMs)) with
      | some o => if o.claimed then s.m_commanderName else ""
      | none =>
          if s.m_currentClaim ≠ "" ∧ r = s.m_currentClaim then s.m_commanderName
          else
            match s.m_takenSystemsData.find? (fun system => system.system == r) with
            | some system =>
                if isEmptyPlaceholder system.by_cmdr then "" else system.by_cmdr
            | none => "" := by
  have hprune : ∀ k, (pruneExpiredOverrides s now).m_pendingOverrides k =
      (s.m_pendingOverrides k).filter (fun o => decide (now < o.expireAtMs)) := by
    intro k
    cases hk : s.m_pendingOverrides k with
    | none => simp [pruneExpiredOverrides, hk]
    | some o =>
        by_cases hexp : o.expireAtMs ≤ now
        · have hnot : ¬ now < o.expireAtMs := by omega
          simp [pruneExpiredOverrides, hk, hexp, Option.filter, hnot]
        · have hlt : now < o.expireAtMs := by omega
          simp [pruneExpiredOverrides, hk, hexp, Option.filter, hlt]
  rw [getSystemClaimedBy_state]
  refine ⟨funext hprune, rfl, rfl, ?_⟩
  rw [← hprune r]
  cases hov : (pruneExpiredOverrides s now).m_pendingOverrides r with
  | some o => simpa using getSystemClaimedBy_override s r now o hov
  | none =>
      simp only []
      by_cases h : s.m_currentClaim ≠ "" ∧ r = s.m_currentClaim
      · rw [if_pos h]
        exact getSystemClaimedBy_current s r now hov h.2.symm (h.2 ▸ h.1)
      · rw [if_neg h]
        have hreg := getSystemClaimedBy_registry s r now hov
          (by
            by_cases h1 : s.m_currentClaim = ""
            · exact Or.inl h1
            · exact Or.inr (fun h2 => h ⟨h1, h2⟩))
        rw [hreg]
        unfold querySystemStatus
        split <;> simp_all

/-- C13 (counterexample): two states that differ only in their Registry, both
with a live override on `Sol`; `isSystemCompleted("Sol")` is true in the one
whose Registry shows Alice's done record and false in the other. -/
theorem completed_override_counterexample :
    isSystemCompleted
      { mkManager "Alice" [mkRow "Sol" "Alice" true] with
        m_pendingOverrides := oneOverride "Sol" { claimed := true, expireAtMs := 2000 } }
      "Sol" = true ∧
    isSystemCompleted
      { mkManager "Alice" [] with
        m_pendingOverrides := oneOverride "Sol" { claimed := true, expireAtMs := 2000 } }
      "Sol" = false := by
  decide

/-- C13 (amended): `isSystemCompleted(r)` is answered from the Registry alone.
For every state and every resource `r`, with or without a live override, the
result is the same for any two states that differ only in their Override Table
or `m_currentClaim`, and it is true exactly when the first Registry record of
`r` has `done == true` and an owner (the placeholder read as empty) equal to the
caller. -/
theorem completed_override_amended (s : ClaimManager) (r : String) :
    (∀ overrides current,
      isSystemCompleted { s with m_pendingOverrides := overrides, m_currentClaim := current } r
        = isSystemCompleted s r) ∧
    isSystemCompleted s r =
      match s.m_takenSystemsData.find? (fun system => system.system == r) with
      | some system =>
          system.done &&
            (if isEmptyPlaceholder system.by_cmdr then "" else system.by_cmdr)
              == s.m_commanderName
      | none => false := by
  refine ⟨fun overrides current => rfl, ?_⟩
  unfold isSystemCompleted querySystemStatus
  cases hrow : s.m_takenSystemsData.find? (fun system => system.system == r) with
  | none => simp
  | some row => simp

/-- C14: for every response `taken` with more than 10 rows, after
`onTakenSystemsReceived(taken)` the Registry is `taken` itself, the caller and
the Override Table are unchanged, and `m_currentClaim` is the system name of the
first row of `taken`, in order, whose `by_cmdr` equals the caller and whose
`done` is false, or empty when there is no such row. -/
theorem accepted_refresh (s : ClaimManager) (taken : List TakenRow)
    (hlen : taken.length > 10) :
    (onTakenSystemsReceived s taken).state.m_takenSystemsData = taken ∧
    (onTakenSystemsReceived s taken).state.m_commanderName = s.m_commanderName ∧
    (onTakenSystemsReceived s taken).state.m_pendingOverrides = s.m_pendingOverrides ∧
    (onTakenSystemsReceived s taken).state.m_currentClaim =
      match taken.find? (fun system => system.by_cmdr == s.m_commanderName && !system.done) with
      | some system => system.system
      | none => "" := by
  rw [onTakenSystemsReceived_accept s taken hlen]
  exact ⟨rfl, rfl, rfl, rfl⟩

/-- C14 (witness): the eleven-row table replaces a Registry that held a row for
`Wolf`; Alice's first active row is the one for `Sol`. -/
theorem accepted_refresh_witness :
    fullTable.length > 10 ∧
    (onTakenSystemsReceived (mkManager "Alice" [mkRow "Wolf" "Alice" false])
      fullTable).state.m_takenSystemsData = fullTable ∧
    (onTakenSystemsReceived (mkManager "Alice" [mkRow "Wolf" "Alice" false])
      fullTable).state.m_currentClaim = "Sol" :=
  have h := accepted_refresh (mkManager "Alice" [mkRow "Wolf" "Alice" false]) fullTable
    (by decide)
  ⟨by decide, h.1, h.2.2.2.trans (by decide)⟩

/-- C15: for every state with a store adapter and every resource `r`,
`claimSystem(r)` returns true and leaves `m_currentClaim == r`; the Registry is
not consulted: result and new `m_currentClaim` are the same for every Registry
and every previous `m_currentClaim`. -/
theorem claim_is_optimistic (s : ClaimManager) (r : String)
    (hclient : s.m_supabaseClient = true) :
    (claimSystem s r).result = true ∧
    (claimSystem s r).state.m_currentClaim = r ∧
    (∀ taken current,
      (claimSystem { s with m_takenSystemsData := taken, m_currentClaim := current } r).result
        = true ∧
      (claimSystem { s with m_takenSystemsData := taken, m_currentClaim := current }
        r).state.m_currentClaim = r) := by
  simp [claimSystem, hclient]

/-- C15 (witness): Alice holds `Vega` and the Registry shows `Sol` held by Bob;
`claimSystem("Sol")` is accepted and `Sol` becomes her claim. -/
theorem claim_is_optimistic_witness :
    (claimSystem { mkManager "Alice" [mkRow "Sol" "Bob" false] with m_currentClaim := "Vega" }
      "Sol").result = true ∧
    (claimSystem { mkManager "Alice" [mkRow "Sol" "Bob" false] with m_currentClaim := "Vega" }
      "Sol").state.m_currentClaim = "Sol" :=
  have h := claim_is_optimistic
    { mkManager "Alice" [mkRow "Sol" "Bob" false] with m_currentClaim := "Vega" } "Sol" rfl
  ⟨h.1, h.2.1⟩

/-- C16 (counterexample): with a store adapter and an empty Override Table, both
`claimSystem("Sol")` and `unclaimSystem("Sol")` are accepted and the Override
Table still has no entry for `Sol` afterwards. -/
theorem override_creation_counterexample :
    (claimSystem (mkManager "Alice" []) "Sol").result = true ∧
    (claimSystem (mkManager "Alice" []) "Sol").state.m_pendingOverrides "Sol" = none ∧
    (unclaimSystem (mkManager "Alice" []) "Sol").result = true ∧
    (unclaimSystem (mkManager "Alice" []) "Sol").state.m_pendingOverrides "Sol" = none := by
  decide

/-- C16 (amended): `claimSystem(r)` and `unclaimSystem(r)` leave the Override
Table as it was. The PendingOverride is created by `applyLocalClaim(r)` and
`applyLocalUnclaim(r)`: for every non-empty `r`, after `applyLocalClaim(r)` at
time `t` the Override Table maps `r` to (claimed = true, expiry = t + 2000), and
after `applyLocalUnclaim(r)` at time `t` it maps `r` to (claimed = false,
expiry = t + 2000). -/
theorem override_creation_amended (s : ClaimManager) (r : String) (t : Int)
    (hr : r ≠ "") :
    (claimSystem s r).state.m_pendingOverrides = s.m_pendingOverrides ∧
    (unclaimSystem s r).state.m_pendingOverrides = s.m_pendingOverrides ∧
    (applyLocalClaim s r t).state.m_pendingOverrides r
      = some { claimed := true, expireAtMs := t + 2000 } ∧
    (applyLocalUnclaim s r t).state.m_pendingOverrides r
      = some { claimed := false, expireAtMs := t + 2000 } := by
  refine ⟨?_, ?_, ?_, ?_⟩
  · unfold claimSystem
    split <;> rfl
  · unfold unclaimSystem
    simp only []
    split_ifs <;> rfl
  · simp [applyLocalClaim, hr]
  · unfold applyLocalUnclaim
    simp only [beq_iff_eq, hr, if_false]
    split_ifs <;> simp

/-- C16 (witness): the store confirms Alice's claim of `Sol` at time 100. -/
theorem override_creation_amended_witness :
    (applyLocalClaim (mkManager "Alice" []) "Sol" 100).state.m_pendingOverrides "Sol"
      = some { claimed := true, expireAtMs := 2100 } ∧
    (applyLocalUnclaim (mkManager "Alice" []) "Sol" 100).state.m_pendingOverrides "Sol"
      = some { claimed := false, expireAtMs := 2100 } :=
  have h := override_creation_amended (mkManager "Alice" []) "Sol" 100 (by decide)
  ⟨h.2.2.1, h.2.2.2⟩

/-- C17: `unclaimSystem(r)` returns false exactly when the Registry record for
`r` has an owner that is non-empty, is not the placeholder and differs from the
caller, or when the store adapter is missing; it then emits one `claimError` and
leaves the object as it was. In every other case it returns true and
`m_currentClaim` is cleared exactly when it equalled `r`; nothing else
changes. -/
theorem unclaim_contract (s : ClaimManager) (r : String) :
    ((unclaimSystem s r).result = false ↔
      ((∃ row, s.m_takenSystemsData.find? (fun system => system.system == r) = some row ∧
          row.by_cmdr ≠ "" ∧ isEmptyPlaceholder row.by_cmdr = false ∧
          row.by_cmdr ≠ s.m_commanderName) ∨
        s.m_supabaseClient = false)) ∧
    ((unclaimSystem s r).result = false →
      (unclaimSystem s r).state = s ∧
      ∃ message, (unclaimSystem s r).effects = [Effect.claimError message]) ∧
    ((unclaimSystem s r).result = true →
      (unclaimSystem s r).state =
        { s with m_currentClaim := if s.m_currentClaim = r then "" else s.m_currentClaim }) := by
  have hiff := foreignOwner_iff s r
  refine ⟨?_, ?_, ?_⟩
  · rw [← hiff, unclaimSystem_result]
    cases s.m_supabaseClient <;>
      cases ((querySystemStatus s r).claimedBy != "" &&
        (querySystemStatus s r).claimedBy != s.m_commanderName) <;> simp
  · unfold unclaimSystem
    simp only []
    split_ifs <;> simp
  · unfold unclaimSystem
    simp only []
    split_ifs <;> first | (intro _; rfl) | simp_all

/-- C17 (witness): Alice cannot release Bob's `Sol`; she can release her own
`Vega`, which clears her claim. -/
theorem unclaim_contract_witness :
    (unclaimSystem
      { mkManager "Alice" [mkRow "Sol" "Bob" false, mkRow "Vega" "Alice" false] with
        m_currentClaim := "Vega" } "Sol").state.m_currentClaim = "Vega" ∧
    (unclaimSystem
      { mkManager "Alice" [mkRow "Sol" "Bob" false, mkRow "Vega" "Alice" false] with
        m_currentClaim := "Vega" } "Vega").state.m_currentClaim = "" :=
  ⟨congrArg ClaimManager.m_currentClaim
      ((unclaim_contract
        { mkManager "Alice" [mkRow "Sol" "Bob" false, mkRow "Vega" "Alice" false] with
          m_currentClaim := "Vega" } "Sol").2.1 (by decide)).1,
    (congrArg ClaimManager.m_currentClaim
      ((unclaim_contract
        { mkManager "Alice" [mkRow "Sol" "Bob" false, mkRow "Vega" "Alice" false] with
          m_currentClaim := "Vega" } "Vega").2.2 (by decide))).trans (by decide)⟩

/-- C18: the `CHECK:existing_claim` reply rejects the claim, that is emits
`systemClaimed(r, false)`, exactly when the check read returned a record whose
owner is non-empty, is not the placeholder "empty" (any letter case), differs
from the caller and has `done == false`; what it emits then is
`systemClaimed(r, false)` followed by the conflict error naming the owner, and
no write request. -/
theorem remote_check_rejects (systemName commander : String) (hasVisited : Bool)
    (existingData : List TakenRow) :
    (ClientEffect.systemClaimed systemName false ∈
        SupabaseClient.handleNetworkReply_CHECK_existing_claim systemName commander hasVisited
          existingData ↔
      ∃ row rest, existingData = row :: rest ∧ row.by_cmdr ≠ "" ∧
        isEmptyPlaceholder row.by_cmdr = false ∧ row.by_cmdr ≠ commander ∧
        row.done = false) ∧
    (∀ row rest, existingData = row :: rest → row.by_cmdr ≠ "" →
      isEmptyPlaceholder row.by_cmdr = false → row.by_cmdr ≠ commander → row.done = false →
      SupabaseClient.handleNetworkReply_CHECK_existing_claim systemName commander hasVisited
          existingData =
        [ClientEffect.systemClaimed systemName false,
         ClientEffect.networkError
           ("System '" ++ systemName ++ "' is already claimed by " ++ row.by_cmdr ++
             ". You cannot claim systems that belong to other commanders unless they are marked as 'Done'.")]) := by
  constructor
  · cases existingData with
    | nil => simp [SupabaseClient.handleNetworkReply_CHECK_existing_claim]
    | cons row rest =>
        simp only [SupabaseClient.handleNetworkReply_CHECK_existing_claim]
        by_cases h1 : row.by_cmdr = ""
        · simp [h1]
        · by_cases h2 : isEmptyPlaceholder row.by_cmdr = true
          · simp [h1, h2]
          · by_cases h3 : row.by_cmdr = commander
            · subst h3
              simp [h1, h2]
            · cases h4 : row.done <;> simp [h1, h2, h3, h4]
  · intro row rest hdata h1 h2 h3 h4
    subst hdata
    simp [SupabaseClient.handleNetworkReply_CHECK_existing_claim, h1, h2, h3, h4,
      SupabaseClient.conflictMessage]

/-- C18 (witness): Alice's check of `Sol` finds Bob's active record. -/
theorem remote_check_rejects_witness :
    SupabaseClient.handleNetworkReply_CHECK_existing_claim "Sol" "Alice" false
        [mkRow "Sol" "Bob" false] =
      [ClientEffect.systemClaimed "Sol" false,
       ClientEffect.networkError
         ("System '" ++ "Sol" ++ "' is already claimed by " ++ "Bob" ++
           ". You cannot claim systems that belong to other commanders unless they are marked as 'Done'.")] :=
  (remote_check_rejects "Sol" "Alice" false [mkRow "Sol" "Bob" false]).2
    (mkRow "Sol" "Bob" false) [] rfl (by decide) (by decide) (by decide) rfl

/-- C19 (counterexample): the check read returns Alice's own record of `Sol`,
first with `done == false`, then with `done == true`; in both cases the reply
handler emits `systemClaimed("Sol", true)` and issues no write. -/
theorem remote_write_counterexample :
    SupabaseClient.handleNetworkReply_CHECK_existing_claim "Sol" "Alice" true
        [mkRow "Sol" "Alice" false] = [ClientEffect.systemClaimed "Sol" true] ∧
    SupabaseClient.handleNetworkReply_CHECK_existing_claim "Sol" "Alice" true
        [mkRow "Sol" "Alice" true] = [ClientEffect.systemClaimed "Sol" true] := by
  decide

/-- C19 (amended): whenever the record for `r` is absent, or its owner is blank
or the placeholder, or its owner is another party and its done flag is true, the
client issues exactly the insert-or-merge keyed on system with
`by_cmdr = caller`, `done = false` and `visited` = the looked-up value. When the
owner is the caller and `done == false`, no write is issued and
`systemClaimed(r, true)` is emitted at once. -/
theorem remote_write_amended (systemName commander : String) (hasVisited : Bool)
    (existingData : List TakenRow) :
    ((existingData = [] ∨
        ∃ row rest, existingData = row :: rest ∧
          (row.by_cmdr = "" ∨ isEmptyPlaceholder row.by_cmdr = true ∨
            (row.by_cmdr ≠ commander ∧ row.done = true))) →
      SupabaseClient.handleNetworkReply_CHECK_existing_claim systemName commander hasVisited
          existingData =
        [ClientEffect.upsertTaken systemName commander hasVisited false]) ∧
    ((∃ row rest, existingData = row :: rest ∧ row.by_cmdr = commander ∧
        row.by_cmdr ≠ "" ∧ isEmptyPlaceholder row.by_cmdr = false ∧ row.done = false) →
      SupabaseClient.handleNetworkReply_CHECK_existing_claim systemName commander hasVisited
          existingData =
        [ClientEffect.systemClaimed systemName true]) := by
  constructor
  · rintro (hnil | ⟨row, rest, hdata, hcase⟩)
    · subst hnil
      rfl
    · subst hdata
      simp only [SupabaseClient.handleNetworkReply_CHECK_existing_claim]
      rcases hcase with h | h | ⟨h, hd⟩
      · simp [h]
      · simp [h]
      · by_cases h1 : row.by_cmdr = ""
        · simp [h1]
        · by_cases h2 : isEmptyPlaceholder row.by_cmdr = true
          · simp [h2]
          · simp [h1, h2, h, hd]
  · rintro ⟨row, rest, hdata, hown, hne, hph, _⟩
    subst hdata
    subst hown
    simp [SupabaseClient.handleNetworkReply_CHECK_existing_claim, hne, hph]

/-- C19 (witness): Alice's check of `Sol` finds Bob's done record; she writes her
claim with the visited flag she looked up. -/
theorem remote_write_amended_witness :
    SupabaseClient.handleNetworkReply_CHECK_existing_claim "Sol" "Alice" true
        [mkRow "Sol" "Bob" true] =
      [ClientEffect.upsertTaken "Sol" "Alice" true false] :=
  (remote_write_amended "Sol" "Alice" true [mkRow "Sol" "Bob" true]).1
    (Or.inr ⟨mkRow "Sol" "Bob" true, [], rfl, Or.inr (Or.inr ⟨by decide, rfl⟩)⟩)

/-- C21: for every state without a store adapter, `claimSystem(r)` and
`unclaimSystem(r)` return false and emit one `claimError`, `refreshClaimData`
emits nothing, and in all three cases the object (so `m_currentClaim`, Registry
and Override Table) is unchanged. -/
theorem missing_adapter (s : ClaimManager) (r : String)
    (hmissing : s.m_supabaseClient = false) :
    ((claimSystem s r).result = false ∧ (claimSystem s r).state = s ∧
      ∃ message, (claimSystem s r).effects = [Effect.claimError message]) ∧
    ((unclaimSystem s r).result = false ∧ (unclaimSystem s r).state = s ∧
      ∃ message, (unclaimSystem s r).effects = [Effect.claimError message]) ∧
    ((refreshClaimData s).state = s ∧ (refreshClaimData s).effects = []) := by
  refine ⟨?_, ?_, ?_⟩
  · simp [claimSystem, hmissing]
  · unfold unclaimSystem
    simp only [hmissing]
    split_ifs <;> simp_all
  · simp [refreshClaimData, hmissing]

/-- C21 (witness): a freshly constructed manager has no adapter; claiming `Sol`
fails and changes nothing. -/
theorem missing_adapter_witness :
    ClaimManager.ctor.m_supabaseClient = false ∧
    (claimSystem ClaimManager.ctor "Sol").result = false ∧
    (claimSystem ClaimManager.ctor "Sol").state = ClaimManager.ctor :=
  have h := missing_adapter ClaimManager.ctor "Sol" rfl
  ⟨rfl, h.1.1, h.1.2.1⟩

/-- C22 (counterexample): the manager has a store adapter and an empty commander
name; `claimSystem("Sol")` returns true and `m_currentClaim` becomes `Sol`. -/
theorem missing_identity_counterexample :
    (mkManager "" []).m_commanderName = "" ∧
    (claimSystem (mkManager "" []) "Sol").result = true ∧
    (mkManager "" []).m_currentClaim = "" ∧
    (claimSystem (mkManager "" []) "Sol").state.m_currentClaim = "Sol" := by
  decide

/-- C22 (amended): `ClaimManager::claimSystem` does not look at the commander
name. For every state with an empty commander name and a store adapter,
`claimSystem(r)` returns true, sets `m_currentClaim = r` and hands the claim to
the adapter with the empty name; the failure is reported by the adapter: a
configured `SupabaseClient::claimSystem(r, "")` sends no request, keeps its
state and emits `systemClaimed(r, false)`. -/
theorem missing_identity_amended (s : ClaimManager) (r : String)
    (hclient : s.m_supabaseClient = true) (hid : s.m_commanderName = "") :
    (claimSystem s r).result = true ∧
    (claimSystem s r).state.m_currentClaim = r ∧
    Effect.clientClaimSystem r "" ∈ (claimSystem s r).effects ∧
    (∀ c : SupabaseClient, c.m_supabaseUrl ≠ "" → c.m_supabaseKey ≠ "" →
      SupabaseClient.claimSystem c r "" = (c, [ClientEffect.systemClaimed r false])) := by
  refine ⟨?_, ?_, ?_, ?_⟩
  · simp [claimSystem, hclient]
  · simp [claimSystem, hclient]
  · simp [claimSystem, hclient, hid]
  · intro c hurl hkey
    simp [SupabaseClient.claimSystem, hurl, hkey]

/-- C22 (witness): the manager of the counterexample and a configured client. -/
theorem missing_identity_amended_witness :
    (claimSystem (mkManager "" []) "Sol").result = true ∧
    SupabaseClient.claimSystem (mkClient "") "Sol" ""
      = (mkClient "", [ClientEffect.systemClaimed "Sol" false]) :=
  have h := missing_identity_amended (mkManager "" []) "Sol" rfl rfl
  ⟨h.1, h.2.2.2 (mkClient "") (by decide) (by decide)⟩

/-- C23: for every non-empty resource `r` and every non-empty sequence of
`applyLocalClaim(r)` / `applyLocalUnclaim(r)` calls, the Override Table (a map,
so with one entry per resource) maps `r` to the claimed flag of the last call
and the expiry that call wrote (its time + 2000), and every other resource keeps
its entry; and after `applyLocalClaim(r)` followed by `applyLocalUnclaim(r)`,
`isSystemClaimedByUser(r)` is false as long as the override is live. -/
theorem override_put_overwrites (s : ClaimManager) (r : String) (hr : r ≠ "")
    (actions : List LocalAction) (last : LocalAction) :
    (applyLocals r s (actions ++ [last])).m_pendingOverrides r
      = some { claimed := last.claimed, expireAtMs := last.now + 2000 } ∧
    (∀ k, k ≠ r →
      (applyLocals r s (actions ++ [last])).m_pendingOverrides k = s.m_pendingOverrides k) ∧
    (∀ t1 t2 now now2, now < t2 + 2000 →
      (isSystemClaimedByUser (applyLocalUnclaim (applyLocalClaim s r t1).state r t2).state
        r now now2).result = false) := by
  refine ⟨?_, fun k hk => applyLocals_other r hr (actions ++ [last]) s k hk, ?_⟩
  · simp only [applyLocals, List.foldl_append, List.foldl]
    rw [applyLocal_overrides r hr]
    simp
  · intro t1 t2 now now2 hlive
    have h2 := applyLocal_overrides r hr (applyLocalClaim s r t1).state
      { claimed := false, now := t2 }
    have hentry : (applyLocalUnclaim (applyLocalClaim s r t1).state r t2).state.m_pendingOverrides r
        = some { claimed := false, expireAtMs := t2 + 2000 } := by
      have h3 := congrFun h2 r
      simpa [applyLocal] using h3
    exact isSystemClaimedByUser_override _ r now now2 { claimed := false, expireAtMs := t2 + 2000 }
      (prune_lookup_live _ r now _ hentry hlive)

/-- C23 (witness): `Sol` is claimed at 100 and released at 300, an older override
for `Vega` is in the table; at 2000 the entry of `Sol` says unclaimed. -/
theorem override_put_overwrites_witness :
    (applyLocals "Sol"
        { mkManager "Alice" [] with
          m_pendingOverrides := oneOverride "Vega" { claimed := true, expireAtMs := 50 } }
        ([{ claimed := true, now := 100 }] ++ [{ claimed := false, now := 300 }])).m_pendingOverrides
        "Sol" = some { claimed := false, expireAtMs := 300 + 2000 } ∧
    (isSystemClaimedByUser
        (applyLocalUnclaim (applyLocalClaim (mkManager "Alice" []) "Sol" 100).state "Sol"
          300).state "Sol" 2000 2000).result = false :=
  ⟨(override_put_overwrites
      { mkManager "Alice" [] with
        m_pendingOverrides := oneOverride "Vega" { claimed := true, expireAtMs := 50 } }
      "Sol" (by decide) [{ claimed := true, now := 100 }] { claimed := false, now := 300 }).1,
    (override_put_overwrites (mkManager "Alice" []) "Sol" (by decide) []
      { claimed := false, now := 300 }).2.2 100 300 2000 2000 (by decide)⟩

/-- C24 (counterexample): the override for `Sol` is written at time 100 with the
2000 ms TTL, so it expires at 2100; at `now = 2100`, which is `<= t + 2000`,
`pruneExpiredOverrides` removes it. -/
theorem prune_counterexample :
    (applyLocalClaim (mkManager "Alice" []) "Sol" 100).state.m_pendingOverrides "Sol"
      = some { claimed := true, expireAtMs := 2100 } ∧
    (pruneExpiredOverrides (applyLocalClaim (mkManager "Alice" []) "Sol" 100).state
      2100).m_pendingOverrides "Sol" = none := by
  decide

/-- C24 (amended): for every Override Table and every time `now`,
`pruneExpiredOverrides` removes exactly the entries with `expireAtMs <= now` and
keeps every other entry with its value unchanged, and touches no other member;
an override written at time `t` with the fixed 2000 ms TTL is therefore live at
every `now < t + 2000` and removed at every `now >= t + 2000`. -/
theorem prune_amended (s : ClaimManager) (now : Int) :
    (∀ k o, s.m_pendingOverrides k = some o → o.expireAtMs ≤ now →
      (pruneExpiredOverrides s now).m_pendingOverrides k = none) ∧
    (∀ k o, s.m_pendingOverrides k = some o → now < o.expireAtMs →
      (pruneExpiredOverrides s now).m_pendingOverrides k = some o) ∧
    (∀ k, s.m_pendingOverrides k = none →
      (pruneExpiredOverrides s now).m_pendingOverrides k = none) ∧
    (pruneExpiredOverrides s now).m_currentClaim = s.m_currentClaim ∧
    (pruneExpiredOverrides s now).m_takenSystemsData = s.m_takenSystemsData ∧
    (∀ r t, r ≠ "" → now < t + 2000 →
      (pruneExpiredOverrides (applyLocalClaim s r t).state now).m_pendingOverrides r
        = some { claimed := true, expireAtMs := t + 2000 }) ∧
    (∀ r t, r ≠ "" → t + 2000 ≤ now →
      (pruneExpiredOverrides (applyLocalClaim s r t).state now).m_pendingOverrides r
        = none) := by
  refine ⟨fun k o ho hexp => prune_lookup_expired s k now o ho hexp,
    fun k o ho hlive => prune_lookup_live s k now o ho hlive,
    fun k ho => prune_lookup_absent s k now ho, rfl, rfl, ?_, ?_⟩
  · intro r t hr hlive
    have hentry : (applyLocalClaim s r t).state.m_pendingOverrides r
        = some { claimed := true, expireAtMs := t + 2000 } := by
      simp [applyLocalClaim, hr]
    exact prune_lookup_live _ r now _ hentry hlive
  · intro r t hr hexp
    have hentry : (applyLocalClaim s r t).state.m_pendingOverrides r
        = some { claimed := true, expireAtMs := t + 2000 } := by
      simp [applyLocalClaim, hr]
    exact prune_lookup_expired _ r now _ hentry hexp

/-- C24 (witness): the override written at 100 is still there at 2099. -/
theorem prune_amended_witness :
    (pruneExpiredOverrides (applyLocalClaim (mkManager "Alice" []) "Sol" 100).state
      2099).m_pendingOverrides "Sol" = some { claimed := true, expireAtMs := 100 + 2000 } :=
  (prune_amended (mkManager "Alice" []) 2099).2.2.2.2.2.1 "Sol" 100 (by decide) (by decide)

/-- C25: the Registry changes only through an accepted refresh. Every call other
than an `onTakenSystemsReceived` with more than 10 rows leaves
`m_takenSystemsData` as it was; an accepted one makes it the response; hence
after any sequence of calls on a freshly constructed manager the Registry is
empty or is, in full, the last accepted response. -/
theorem registry_frame :
    (∀ (s : ClaimManager) (op : ManagerOp), op.isAcceptedRefresh = false →
      (ManagerOp.step s op).m_takenSystemsData = s.m_takenSystemsData) ∧
    (∀ (s : ClaimManager) (taken : List TakenRow), taken.length > 10 →
      (ManagerOp.step s (ManagerOp.onTakenSystemsReceived taken)).m_takenSystemsData = taken) ∧
    (∀ ops : List ManagerOp,
      (ManagerOp.run ClaimManager.ctor ops).m_takenSystemsData = [] ∨
      ∃ before taken after,
        ops = before ++ ManagerOp.onTakenSystemsReceived taken :: after ∧
        taken.length > 10 ∧ (∀ op ∈ after, op.isAcceptedRefresh = false) ∧
        (ManagerOp.run ClaimManager.ctor ops).m_takenSystemsData = taken) := by
  refine ⟨step_registry_frame, step_registry_accept, ?_⟩
  intro ops
  rcases run_registry_cases ops ClaimManager.ctor with ⟨hreg, _⟩ | h
  · exact Or.inl hreg
  · exact Or.inr h

/-- C25 (witness): after an accepted refresh, a claim, a one-row response and a
query, the Registry is still the accepted response. -/
theorem registry_frame_witness :
    (ManagerOp.run ClaimManager.ctor
      [ManagerOp.initializeManager true "Alice", ManagerOp.onTakenSystemsReceived fullTable,
       ManagerOp.claimSystem "Vega", ManagerOp.onTakenSystemsReceived [mkRow "Vega" "Alice" false],
       ManagerOp.getSystemClaimedBy "Vega" 100]).m_takenSystemsData = fullTable :=
  ((registry_frame.1 _ (ManagerOp.getSystemClaimedBy "Vega" 100) rfl).trans
    ((registry_frame.1 _ (ManagerOp.onTakenSystemsReceived [mkRow "Vega" "Alice" false])
      (by decide)).trans
      ((registry_frame.1 _ (ManagerOp.claimSystem "Vega") rfl).trans
        (registry_frame.2.1 _ fullTable (by decide)))))

/-- C26: `getClaimStatusDebug` does report YOURS_ORPHANED in reachable states.
(1) Alice's manager is set up, the refresh shows her active record of `Sol`, she
releases `Sol`: before the next refresh the status of `Sol` is YOURS_ORPHANED.
(2) The refresh shows two active records of Alice, `Vega` ahead of `Sol`:
`m_currentClaim` is `Vega` and the status of `Sol` is YOURS_ORPHANED. -/
theorem orphaned_status_reachable :
    getClaimStatusDebug
      (ManagerOp.run ClaimManager.ctor
        [ManagerOp.initializeManager true "Alice", ManagerOp.onTakenSystemsReceived fullTable,
         ManagerOp.unclaimSystem "Sol"])
      "Sol" = "YOURS_ORPHANED [Current: ]" ∧
    getClaimStatusDebug
      (ManagerOp.run ClaimManager.ctor
        [ManagerOp.initializeManager true "Alice",
         ManagerOp.onTakenSystemsReceived twoActiveTable])
      "Sol" = "YOURS_ORPHANED [Current: Vega]" := by
  decide

/-- C27 (counterexample): the commander is at x = 25899.96875 when the first
request is issued at time 1000 and at x = 25900.03125 one second later. The two
positions differ, both print as "25900,0,0", and the second call is skipped with
the statics unchanged. -/
theorem nearest_debounce_counterexample :
    coordNear = 25899.96875 ∧ coordFar = 25900.03125 ∧ coordNear ≠ coordFar ∧
    positionText coordNear 0 0 = "25900,0,0" ∧ positionText coordFar 0 0 = "25900,0,0" ∧
    (updateNearestSystems true true false true coordNear 0 0 1000 NearestThrottle.initial)
      = ({ lastRequestTime := some 1000, lastRequestPosition := "25900,0,0" },
          some NearestRequest.getSystemsNear) ∧
    (updateNearestSystems true true false true coordFar 0 0 2000
        { lastRequestTime := some 1000, lastRequestPosition := "25900,0,0" })
      = ({ lastRequestTime := some 1000, lastRequestPosition := "25900,0,0" }, none) := by
  refine ⟨?_, ?_, by decide, by decide, by decide, by decide, by decide⟩
  · rw [coordNear, Rat.mk'_eq_divInt, Rat.divInt_eq_div]
    norm_num
  · rw [coordFar, Rat.mk'_eq_divInt, Rat.divInt_eq_div]
    norm_num

/-- C27 (amended): with an adapter that is configured and not in cool-down,
`updateNearestSystems` skips the request exactly when the text "x,y,z" of the
commander coordinates, each printed with six significant digits, equals the
text remembered at the last issued request and that request was made less than
2000 ms before `now`; a skip leaves the remembered text and time unchanged;
otherwise a request is issued and the remembered text and time become the
current ones. -/
theorem nearest_debounce_amended (m_hasValidPosition : Bool)
    (m_commanderX m_commanderY m_commanderZ : ℚ) (now : Int) (th : NearestThrottle) :
    ((updateNearestSystems true true false m_hasValidPosition m_commanderX m_commanderY
        m_commanderZ now th).2 = none ↔
      (th.lastRequestPosition =
          formatDouble m_commanderX ++ "," ++ formatDouble m_commanderY ++ "," ++
            formatDouble m_commanderZ ∧
        ∃ last, th.lastRequestTime = some last ∧ now - last < 2000)) ∧
    ((updateNearestSystems true true false m_hasValidPosition m_commanderX m_commanderY
        m_commanderZ now th).2 = none →
      (updateNearestSystems true true false m_hasValidPosition m_commanderX m_commanderY
        m_commanderZ now th).1 = th) ∧
    ((updateNearestSystems true true false m_hasValidPosition m_commanderX m_commanderY
        m_commanderZ now th).2 ≠ none →
      (updateNearestSystems true true false m_hasValidPosition m_commanderX m_commanderY
        m_commanderZ now th).1
        = { lastRequestTime := some now
            lastRequestPosition :=
              formatDouble m_commanderX ++ "," ++ formatDouble m_commanderY ++ "," ++
                formatDouble m_commanderZ }) := by
  have htext : formatDouble m_commanderX ++ "," ++ formatDouble m_commanderY ++ "," ++
      formatDouble m_commanderZ = positionText m_commanderX m_commanderY m_commanderZ := rfl
  rw [htext]
  have hcond : (th.lastRequestPosition == positionText m_commanderX m_commanderY m_commanderZ &&
      withinTwoSeconds th.lastRequestTime now) = true ↔
      (th.lastRequestPosition = positionText m_commanderX m_commanderY m_commanderZ ∧
        ∃ last, th.lastRequestTime = some last ∧ now - last < 2000) := by
    cases hl : th.lastRequestTime with
    | none => simp [withinTwoSeconds]
    | some last =>
        simp only [withinTwoSeconds, Bool.and_eq_true, beq_iff_eq, decide_eq_true_eq,
          Option.some.injEq, exists_eq_left']
        constructor
        · rintro ⟨h1, h2⟩
          exact ⟨h1, by omega⟩
        · rintro ⟨h1, h2⟩
          exact ⟨h1, by omega⟩
  by_cases h : (th.lastRequestPosition == positionText m_commanderX m_commanderY m_commanderZ &&
      withinTwoSeconds th.lastRequestTime now) = true
  · have hres : updateNearestSystems true true false m_hasValidPosition m_commanderX
        m_commanderY m_commanderZ now th = (th, none) := by
      simp only [updateNearestSystems, h]
      rfl
    rw [hres]
    exact ⟨⟨fun _ => hcond.mp h, fun _ => rfl⟩, fun _ => rfl, fun hne => absurd rfl hne⟩
  · have hres : updateNearestSystems true true false m_hasValidPosition m_commanderX
        m_commanderY m_commanderZ now th
        = ({ lastRequestTime := some now
             lastRequestPosition := positionText m_commanderX m_commanderY m_commanderZ },
            some (if m_hasValidPosition then NearestRequest.getSystemsNear
                  else NearestRequest.getSystems)) := by
      simp only [updateNearestSystems, h]
      rfl
    rw [hres]
    refine ⟨⟨fun hnone => ?_, fun hc => absurd (hcond.mpr hc) h⟩, fun hnone => ?_, fun _ => rfl⟩
    · simp at hnone
    · simp at hnone

/-- C27 (witness): the commander has not moved and the last request was issued
1999 ms ago: skipped, statics unchanged. -/
theorem nearest_debounce_amended_witness :
    (updateNearestSystems true true false true coordNear 0 0 5000
      { lastRequestTime := some 3001, lastRequestPosition := "25900,0,0" })
      = ({ lastRequestTime := some 3001, lastRequestPosition := "25900,0,0" }, none) :=
  have h := nearest_debounce_amended true coordNear 0 0 5000
    { lastRequestTime := some 3001, lastRequestPosition := "25900,0,0" }
  Prod.ext (h.2.1 (h.1.mpr ⟨by decide, 3001, rfl, by decide⟩))
    (h.1.mpr ⟨by decide, 3001, rfl, by decide⟩)

/-- C28: for every state with a non-empty caller identity, every resource `r` and
every time `now` (and whatever the second clock reading `now2` of the nested
call), `isSystemClaimedByUser(r)` is true if and only if `getSystemClaimedBy(r)`
equals the caller's identity; with an empty identity the two disagree on a live
override with `claimed == false`. -/
theorem queries_agree :
    (∀ (s : ClaimManager) (r : String) (now now2 : Int), s.m_commanderName ≠ "" →
      (isSystemClaimedByUser s r now now2).result =
        ((getSystemClaimedBy s r now).result == s.m_commanderName)) ∧
    ((isSystemClaimedByUser
        { mkManager "" [] with
          m_pendingOverrides := oneOverride "Sol" { claimed := false, expireAtMs := 2000 } }
        "Sol" 100 100).result = false ∧
      ((getSystemClaimedBy
        { mkManager "" [] with
          m_pendingOverrides := oneOverride "Sol" { claimed := false, expireAtMs := 2000 } }
        "Sol" 100).result == "") = true) := by
  refine ⟨?_, by decide⟩
  intro s r now now2 hne
  cases hov : (pruneExpiredOverrides s now).m_pendingOverrides r with
  | some o =>
      rw [isSystemClaimedByUser_override s r now now2 o hov,
        getSystemClaimedBy_override s r now o hov]
      cases o.claimed
      · have h2 : ¬ "" = s.m_commanderName := fun h => hne h.symm
        simp [h2]
      · simp
  | none =>
      by_cases hcur : s.m_currentClaim ≠ "" ∧ r = s.m_currentClaim
      · rw [isSystemClaimedByUser_current s r now now2 hov hcur.2.symm (hcur.2 ▸ hcur.1),
          getSystemClaimedBy_current s r now hov hcur.2.symm (hcur.2 ▸ hcur.1)]
        simp
      · have hcur2 : s.m_currentClaim = "" ∨ r ≠ s.m_currentClaim := by
          by_cases h1 : s.m_currentClaim = ""
          · exact Or.inl h1
          · exact Or.inr (fun h2 => hcur ⟨h1, h2⟩)
        rw [isSystemClaimedByUser_registry s r now now2 hov hcur2,
          getSystemClaimedBy_registry s r now hov hcur2]

/-- C28 (witness): Alice asks about `Sol`, which the Registry shows as hers. -/
theorem queries_agree_witness :
    (isSystemClaimedByUser (mkManager "Alice" [mkRow "Sol" "Alice" false]) "Sol" 100 101).result
      = true :=
  (queries_agree.1 (mkManager "Alice" [mkRow "Sol" "Alice" false]) "Sol" 100 101
    (by decide)).trans (by decide)

/-- C29: Alice holds `Sol`; `claimSystem("")` returns true, and afterwards
`hasActiveClaim()` is false and `m_currentClaim` is empty: the call cleared her
active claim. -/
theorem empty_claim_clears :
    hasActiveClaim { mkManager "Alice" [] with m_currentClaim := "Sol" } = true ∧
    (claimSystem { mkManager "Alice" [] with m_currentClaim := "Sol" } "").result = true ∧
    hasActiveClaim (claimSystem { mkManager "Alice" [] with m_currentClaim := "Sol" } "").state
      = false ∧
    (claimSystem { mkManager "Alice" [] with m_currentClaim := "Sol" } "").state.m_currentClaim
      = "" := by
  decide

/-- C30: three unclaimed systems are listed, `nextUnclaimed` is called twice
(cursor 2), then the list is replaced by one with a single unclaimed system. The
list is non-empty, the cursor is still 2, and the element access of
`claimClosest` and `viewClosest` is out of bounds, while the guarded
`currentUnclaimedSystemName` answers "None". -/
theorem cursor_out_of_bounds :
    (nearestSystemsReplaced
      (nextUnclaimed (nextUnclaimed (nearestSystemsReplaced UnclaimedCursor.ctor threeNear)))
      oneNear).m_unclaimedSystems.length = 1 ∧
    (nearestSystemsReplaced
      (nextUnclaimed (nextUnclaimed (nearestSystemsReplaced UnclaimedCursor.ctor threeNear)))
      oneNear).m_unclaimedIndex = 2 ∧
    claimClosest (nearestSystemsReplaced
      (nextUnclaimed (nextUnclaimed (nearestSystemsReplaced UnclaimedCursor.ctor threeNear)))
      oneNear) = some none ∧
    viewClosest (nearestSystemsReplaced
      (nextUnclaimed (nextUnclaimed (nearestSystemsReplaced UnclaimedCursor.ctor threeNear)))
      oneNear) = some none ∧
    currentUnclaimedSystemName (nearestSystemsReplaced
      (nextUnclaimed (nextUnclaimed (nearestSystemsReplaced UnclaimedCursor.ctor threeNear)))
      oneNear) = "None" := by
  decide

end EDRH
